import Mathlib

/-!
Verification development for the Silver-layer transformation and validation
engine of the medical-analysis-pipeline repository
(src/scripts/2_silver_layer_construction.py).

Modelling conventions:
* A table cell is a tagged value: text, exact rational number (floats are
  modelled as exact rationals), date (integer day number; timestamps are
  modelled at day granularity), or null (pandas NaN/NaT/None).
* A raw Bronze value that may fail to parse (dates, numerics) is modelled as
  null / invalid / value, mirroring that the Bronze layer reads every CSV
  column as a string and the Silver layer parses with errors equal to coerce.
* Fallible pandas code (the try/except bodies of the transforms) is modelled
  with Except; the surrounding except-handler returns an empty table.
* Database effects (schema DDL, to_sql) are modelled by boolean outcome
  parameters; an exception from either is caught by the loader like in the
  source.
-/

/-- A single table cell. -/
inductive Cell where
  | str (s : String)
  | num (q : Rat)
  | date (d : Int)
  | null
  deriving DecidableEq, Repr

/-- Declared semantic type of a schema field (pandera dtype). -/
inductive FType where
  | tstr
  | tfloat
  | tint
  | tdate
  deriving DecidableEq, Repr

/-- One pandera field declaration, translated from the pa.Field keyword
arguments used in the source schemas: nullable defaults to false, unique to
false; ge/le are numeric bounds, isin an enumeration of allowed strings. -/
structure FieldSpec where
  name : String
  ftype : FType
  nullable : Bool := false
  unique : Bool := false
  ge : Option Rat := none
  le : Option Rat := none
  isin : Option (List String) := none
  coerce : Bool := false
  deriving DecidableEq, Repr

/-- A recorded schema violation: field, row index, offending value, reason. -/
structure Violation where
  field : String
  row : Nat
  value : Cell
  reason : String
  deriving DecidableEq, Repr

/-- A row maps field names to cells (missing field reads as null). -/
abbrev Row := List (String × Cell)

abbrev Table := List Row

def getCell (r : Row) (f : String) : Cell :=
  match r.find? (fun p => p.1 == f) with
  | some p => p.2
  | none => Cell.null

/-- Modelled from the spec: the Validator attempts coercion of a cell to the
declared semantic type (the pandera validate internals are not part of the
repository source); a cross-kind value fails to coerce. -/
def coerceCell (ft : FType) (c : Cell) : Option Cell :=
  match ft, c with
  | _, Cell.null => some Cell.null
  | FType.tstr, Cell.str s => some (Cell.str s)
  | FType.tfloat, Cell.num q => some (Cell.num q)
  | FType.tint, Cell.num q => some (Cell.num (q.num.tdiv q.den))
  | FType.tdate, Cell.date d => some (Cell.date d)
  | _, _ => none

/-- Modelled from the spec: a coercion failure behaves like a null after
coercion (it is then flagged by the non-nullable check). -/
def coerceField (sp : FieldSpec) (c : Cell) : Cell :=
  if sp.coerce then (coerceCell sp.ftype c).getD Cell.null else c

def coerceRow (sch : List FieldSpec) (r : Row) : Row :=
  sch.map (fun sp => (sp.name, coerceField sp (getCell r sp.name)))

def coerceTable (sch : List FieldSpec) (t : Table) : Table :=
  t.map (coerceRow sch)

/-- Does a (non-null) cell have the declared semantic type? -/
def typeOk (ft : FType) (c : Cell) : Bool :=
  match ft, c with
  | _, Cell.null => true
  | FType.tstr, Cell.str _ => true
  | FType.tfloat, Cell.num _ => true
  | FType.tint, Cell.num q => q.den == 1
  | FType.tdate, Cell.date _ => true
  | _, _ => false

/-- Range (ge/le) and enumeration (isin) checks on a non-null cell. -/
def checkOk (sp : FieldSpec) (c : Cell) : Bool :=
  (match sp.ge, c with
   | some b, Cell.num q => decide (b ≤ q)
   | some _, _ => true
   | none, _ => true) &&
  (match sp.le, c with
   | some b, Cell.num q => decide (q ≤ b)
   | some _, _ => true
   | none, _ => true) &&
  (match sp.isin, c with
   | some l, Cell.str s => l.contains s
   | some _, _ => true
   | none, _ => true)

/-- Modelled from the spec: per-cell violations of one field spec. -/
def cellViolations (sp : FieldSpec) (i : Nat) (c : Cell) : List Violation :=
  if c = Cell.null then
    if sp.nullable then [] else [⟨sp.name, i, c, "non-nullable field is null or failed coercion"⟩]
  else if typeOk sp.ftype c = false then [⟨sp.name, i, c, "value has wrong type"⟩]
  else if checkOk sp c = false then [⟨sp.name, i, c, "value fails range or enumeration check"⟩]
  else []

def colValues (t : Table) (f : String) : List Cell :=
  t.map (fun r => getCell r f)

/-- Modelled from the spec: every row whose value occurs more than once in a
unique-declared column is reported, carrying the duplicated value. -/
def uniqueViolations (sp : FieldSpec) (t : Table) : List Violation :=
  if sp.unique then
    (List.range (colValues t sp.name).length).filterMap (fun i =>
      if 2 ≤ (colValues t sp.name).count ((colValues t sp.name).getD i Cell.null) then
        some ⟨sp.name, i, (colValues t sp.name).getD i Cell.null,
              "duplicate value in unique field"⟩
      else none)
  else []

def fieldViolations (sp : FieldSpec) (t : Table) : List Violation :=
  ((List.range t.length).map (fun i => cellViolations sp i (getCell (t.getD i []) sp.name))).flatten
    ++ uniqueViolations sp t

/-- Modelled from the spec: exhaustive (lazy) validation collects every
violation across all fields and rows before deciding. -/
def collectViolations (sch : List FieldSpec) (t : Table) : List Violation :=
  (sch.map (fun sp => fieldViolations sp t)).flatten

/-- Modelled from the spec: schema.validate with lazy equal to true; coerces,
then either returns the coerced table (no violations) or fails with the full
violation list. -/
def validateTable (sch : List FieldSpec) (t : Table) : Except (List Violation) Table :=
  if (collectViolations sch (coerceTable sch t)).isEmpty then Except.ok (coerceTable sch t)
  else Except.error (collectViolations sch (coerceTable sch t))

/-- Semantic satisfaction of one field spec by one cell. -/
def CellSat (sp : FieldSpec) (c : Cell) : Prop :=
  (c = Cell.null → sp.nullable = true) ∧
  (c ≠ Cell.null → typeOk sp.ftype c = true ∧ checkOk sp c = true)

/-- Semantic satisfaction of one field spec by a table: every cell satisfies
the per-cell constraints, and a unique-declared column holds pairwise
distinct values. -/
def FieldSat (sp : FieldSpec) (t : Table) : Prop :=
  (∀ i, i < t.length → CellSat sp (getCell (t.getD i []) sp.name)) ∧
  (sp.unique = true → (colValues t sp.name).Nodup)

/-- A table satisfies every declared constraint of a schema. -/
def TableSat (sch : List FieldSpec) (t : Table) : Prop :=
  ∀ sp ∈ sch, FieldSat sp t

/-- Per-run statistics accumulator (self.stats in the source). -/
structure RunStats where
  loaded_tables : Nat
  total_records : Nat
  failed_tables : List String
  deriving DecidableEq, Repr

def initStats : RunStats := ⟨0, 0, []⟩

/-- Outcome of the two database effects inside the loader: the CREATE SCHEMA
DDL and the to_sql write. -/
structure DBOutcome where
  ddlOk : Bool
  writeOk : Bool
  deriving DecidableEq, Repr

/-- The loader stamps the uniform silver_processing_timestamp column. -/
def addTimestampCol (ts : Int) (t : Table) : Table :=
  t.map (fun r => r ++ [("silver_processing_timestamp", Cell.date ts)])

/-- Translation of SilverLayer loading to silver: empty frame is skipped and
recorded failed; a database exception or a validation rejection is caught and
recorded failed (the latter with the Schema Validation marker); on success the
statistics are updated and the validated table returned. -/
def loadToSilver (ts : Int) (db : DBOutcome) (df : Table) (tname : String)
    (sch : List FieldSpec) (stats : RunStats) : RunStats × Option Table :=
  if df.isEmpty then
    ({ stats with failed_tables := stats.failed_tables ++ [tname] }, none)
  else
    let df2 := addTimestampCol ts df
    if db.ddlOk = false then
      ({ stats with failed_tables := stats.failed_tables ++ [tname] }, none)
    else
      match validateTable sch df2 with
      | Except.error _ =>
          ({ stats with failed_tables := stats.failed_tables ++ [tname ++ " (Schema Validation)"] }, none)
      | Except.ok dfv =>
          if db.writeOk = false then
            ({ stats with failed_tables := stats.failed_tables ++ [tname] }, none)
          else
            ({ stats with loaded_tables := stats.loaded_tables + 1,
                          total_records := stats.total_records + dfv.length }, some dfv)

/-- A raw Bronze cell for a field the Silver layer parses (dates, numerics):
null, a non-null value that fails to parse, or a value that parses. -/
inductive RawVal (α : Type) where
  | null
  | invalid
  | val (a : α)
  deriving DecidableEq, Repr

abbrev RawDate := RawVal Int

abbrev RawNum := RawVal Rat

/-- pd.to_datetime / pd.to_numeric with errors equal to coerce: null and
unparseable both become missing (NaT/NaN). -/
def parseRaw {α : Type} : RawVal α → Option α
  | RawVal.null => none
  | RawVal.invalid => none
  | RawVal.val a => some a

/-- Is the raw value non-null (dropna keeps it)? An unparseable value is
non-null. -/
def rawNotNull {α : Type} : RawVal α → Bool
  | RawVal.null => false
  | _ => true

/-- pd.to_numeric(errors coerce).fillna(0). -/
def numFill0 (v : RawNum) : Rat := (parseRaw v).getD 0

structure RawPatient where
  patient_id : Option String
  first_name : Option String
  last_name : Option String
  date_of_birth : RawDate
  gender : Option String
  deriving DecidableEq, Repr

structure RawEncounter where
  encounter_id : Option String
  patient_id : Option String
  provider_id : Option String
  payer_id : Option String
  encounter_date : RawDate
  discharge_date : RawDate
  encounter_type : Option String
  total_claim_cost : RawNum
  payer_coverage : RawNum
  deriving DecidableEq, Repr

structure RawClaim where
  claim_id : Option String
  patient_id : Option String
  provider_id : Option String
  claim_start_date : RawDate
  claim_end_date : RawDate
  deriving DecidableEq, Repr

structure RawTransaction where
  transaction_id : Option String
  claim_id : Option String
  patient_id : Option String
  provider_id : Option String
  transaction_date : RawDate
  transaction_amount : RawNum
  payments : RawNum
  outstanding : RawNum
  procedure_code : Option String
  type : Option String
  deriving DecidableEq, Repr

structure RawPayer where
  payer_id : Option String
  payer_name : Option String
  deriving DecidableEq, Repr

/-- numpy astype(int) on a float value: truncation toward zero (floor for
non-negative values, ceiling for negative ones). -/
def ratTrunc (q : Rat) : Int := if 0 ≤ q then ⌊q⌋ else ⌈q⌉

/-- Python str.title(): start of every alphabetic run is uppercased, the rest
of the run lowercased. -/
def titleCaseGo : Bool → List Char → List Char
  | _, [] => []
  | prevAlpha, c :: cs =>
      (if c.isAlpha then (if prevAlpha then c.toLower else c.toUpper) else c)
        :: titleCaseGo c.isAlpha cs

def titleCase (s : String) : String := String.mk (titleCaseGo false s.data)

/-- fillna(Unknown) followed by replace of the recognized codes. -/
def genderNorm (g : Option String) : String :=
  match g with
  | none => "Unknown"
  | some s =>
      if s = "M" then "Male"
      else if s = "F" then "Female"
      else if s = "O" then "Other"
      else s

/-- Strict comparison of encounter dates as sort_values orders them:
ascending, with NaT placed last (default na_position). -/
def dateLtB : Option Int → Option Int → Bool
  | some a, some b => decide (a < b)
  | some _, none => true
  | none, _ => false

/-- One row of the patient_payer_map projection of the encounters frame. -/
structure EncSel where
  patient_id : Option String
  payer_id : Option String
  encounter_date : Option Int
  deriving DecidableEq, Repr

/-- Insertion step of the embedding of sort_values: an element is inserted
after every element strictly smaller, before the first one not strictly
smaller. The resulting sort is stable (equal-keyed rows keep their input
order); the source uses the default quicksort, which pandas documents as not
stable, so for equal encounter dates this embedding fixes one concrete
refinement of an implementation-defined order. No claim below relies on the
order of equal-dated rows; the NaT-last placement is faithful. -/
def insertByDate (x : EncSel) : List EncSel → List EncSel
  | [] => [x]
  | y :: ys =>
      if dateLtB y.encounter_date x.encounter_date then y :: insertByDate x ys
      else x :: y :: ys

/-- sort_values on encounter_date (NaT last; equal-date order is the
refinement fixed by insertByDate). -/
def sortByDate (l : List EncSel) : List EncSel := l.foldr insertByDate []

/-- drop_duplicates on patient_id with keep equal to last: a row is kept iff
no later row has the same patient_id. -/
def dropDupKeepLast : List EncSel → List EncSel
  | [] => []
  | x :: xs =>
      if xs.any (fun y => y.patient_id == x.patient_id) then dropDupKeepLast xs
      else x :: dropDupKeepLast xs

/-- Projection of one encounter row into the patient_payer_map (with the
encounter_date already parsed). -/
def encSelOf (e : RawEncounter) : EncSel :=
  EncSel.mk e.patient_id e.payer_id (parseRaw e.encounter_date)

/-- The patient side of the left merge with the deduplicated
patient_payer_map: the payer_id joined to one patient (none on a merge miss,
which pandas fills with NaN). -/
def payerFromEncounters (encs : List RawEncounter) (pid : String) : Option String :=
  match (dropDupKeepLast (sortByDate (encs.map encSelOf))).find?
      (fun r => r.patient_id == some pid) with
  | some r => r.payer_id
  | none => none

/-- A patient row after cleaning and derivation, before payer enrichment. -/
structure PatCore where
  patient_id : String
  first_name : String
  last_name : String
  date_of_birth : Int
  gender : String
  age : Int
  deriving DecidableEq, Repr

/-- A curated patient row (columns of SilverPatientSchema produced by the
transform; the timestamp column is stamped later by the loader). -/
structure PatOut where
  patient_id : String
  first_name : String
  last_name : String
  date_of_birth : Int
  gender : String
  age : Int
  payer_id : Option String
  payer_name : String
  deriving DecidableEq, Repr

def mkPatOut (c : PatCore) (pid : Option String) (pname : String) : PatOut :=
  ⟨c.patient_id, c.first_name, c.last_name, c.date_of_birth, c.gender, c.age, pid, pname⟩

def defaultPayer : String := "Self-Pay / Unspecified"

/-- The dropna subset of the patients transform: patient_id, date_of_birth,
first_name, last_name must be non-null. A non-null unparseable date_of_birth
passes (parsing happens after the drop). -/
def patientRequired (p : RawPatient) : Bool :=
  p.patient_id.isSome && rawNotNull p.date_of_birth && p.first_name.isSome && p.last_name.isSome

/-- The age derivation: (processing_timestamp minus date_of_birth) in days,
divided by 365.25, converted with astype(int) (truncation toward zero). -/
def patientAge (ts dob : Int) : Int :=
  ratTrunc ((Rat.ofInt (ts - dob)) / ((1461 : Rat) / 4))

/-- Cleaning and derivation of one surviving patient row. -/
def patientCore (ts : Int) (p : RawPatient) : PatCore :=
  PatCore.mk (p.patient_id.getD "") (titleCase (p.first_name.getD ""))
    (titleCase (p.last_name.getD "")) ((parseRaw p.date_of_birth).getD 0)
    (genderNorm p.gender) (patientAge ts ((parseRaw p.date_of_birth).getD 0))

/-- The payers frame projected to payer_id and payer_name with nulls
dropped, as prepared for the payer_name merge. -/
def payersCleanOf (pays : List RawPayer) : List (String × String) :=
  pays.filterMap (fun py =>
    match py.payer_id, py.payer_name with
    | some i, some n => some (i, n)
    | _, _ => none)

/-- The left merge of one enriched patient row with payers_clean on payer_id
(many-to-many: duplicate payer ids duplicate the patient row), followed by
the sentinel fillna on payer_name. -/
def enrichName (payersClean : List (String × String)) (cp : PatCore × Option String) :
    List PatOut :=
  if (payersClean.filter (fun pc => some pc.1 == cp.2)).isEmpty then
    [mkPatOut cp.1 cp.2 defaultPayer]
  else (payersClean.filter (fun pc => some pc.1 == cp.2)).map (fun pc => mkPatOut cp.1 cp.2 pc.2)

/-- The cleaned patient rows paired with the payer_id column resulting from
the (conditional) left merge with the deduplicated latest-encounter map; when
the encounters frame is empty no merge happens and no payer_id is attached. -/
def patientsWithPayer (ts : Int) (encs : List RawEncounter) (pats : List RawPatient) :
    List (PatCore × Option String) :=
  if encs.isEmpty then
    ((pats.filter patientRequired).map (patientCore ts)).map
      (fun c => (c, (none : Option String)))
  else
    ((pats.filter patientRequired).map (patientCore ts)).map
      (fun c => (c, payerFromEncounters encs c.patient_id))

/-- Translation of the try body of the patients transform. Error values model
the exceptions the source catches: the astype(int) failure on an age column
containing NaN (from a non-null unparseable date_of_birth), and the KeyError
of merging on a payer_id column that was never created (encounters empty but
payers non-empty). -/
def transformPatientsBody (ts : Int) (pats : List RawPatient) (encs : List RawEncounter)
    (pays : List RawPayer) : Except Unit (List PatOut) :=
  if (pats.filter patientRequired).any (fun p => (parseRaw p.date_of_birth).isNone) then
    Except.error ()
  else if pays.isEmpty then
    Except.ok ((patientsWithPayer ts encs pats).map (fun cp => mkPatOut cp.1 none defaultPayer))
  else if encs.isEmpty then Except.error ()
  else Except.ok ((patientsWithPayer ts encs pats).flatMap (enrichName (payersCleanOf pays)))

/-- The patients transform: empty input short-circuits; the except handler
returns an empty frame. -/
def transformPatients (ts : Int) (pats : List RawPatient) (encs : List RawEncounter)
    (pays : List RawPayer) : List PatOut :=
  if pats.isEmpty then []
  else
    match transformPatientsBody ts pats encs pays with
    | Except.ok l => l
    | Except.error _ => []

/-- A curated claim row (columns of SilverClaimsSchema produced by the
transform). -/
structure ClaimOut where
  claim_id : String
  patient_id : String
  provider_id : Option String
  claim_start_date : Int
  claim_end_date : Option Int
  total_billed_amount : Rat
  total_paid_amount : Rat
  patient_responsibility_amount : Rat
  deriving DecidableEq, Repr

/-- The distinct non-null claim ids of the transactions frame (the groupby
keys; groupby drops null keys). -/
def claimIdsOf (trans : List RawTransaction) : List String :=
  (trans.filterMap (fun t => t.claim_id)).dedup

/-- The three per-claim aggregates of the groupby: sums of the coerced
transaction_amount, payments and outstanding columns over the group. -/
def sumsFor (trans : List RawTransaction) (c : String) : Rat × Rat × Rat :=
  let ms := trans.filter (fun t => t.claim_id == some c)
  ((ms.map (fun t => numFill0 t.transaction_amount)).sum,
   (ms.map (fun t => numFill0 t.payments)).sum,
   (ms.map (fun t => numFill0 t.outstanding)).sum)

/-- The claim_financials frame: one aggregate row per distinct claim_id. -/
def claimFinancials (trans : List RawTransaction) : List (String × Rat × Rat × Rat) :=
  (claimIdsOf trans).map (fun c => (c, sumsFor trans c))

/-- The financial triple one claim id receives from the left merge: the
groupby aggregate when the id has matching transactions, the fillna(0)
default on a merge miss, and the literal 0 columns when the transactions
source is empty. -/
def claimFin (trans : List RawTransaction) (cid : String) : Rat × Rat × Rat :=
  if trans.isEmpty then (0, 0, 0)
  else
    match (claimFinancials trans).find? (fun p => p.1 == cid) with
    | some p => p.2
    | none => (0, 0, 0)

/-- One curated claim row. -/
def claimOutOf (trans : List RawTransaction) (c : RawClaim) : ClaimOut :=
  ClaimOut.mk (c.claim_id.getD "") (c.patient_id.getD "") c.provider_id
    ((parseRaw c.claim_start_date).getD 0) (parseRaw c.claim_end_date)
    (claimFin trans (c.claim_id.getD "")).1 (claimFin trans (c.claim_id.getD "")).2.1
    (claimFin trans (c.claim_id.getD "")).2.2

/-- The claims transform: parse dates, drop rows missing claim_id, patient_id
or a parseable claim_start_date, then left-merge the per-claim financial
aggregates (misses and an empty transactions source give 0). -/
def transformClaims (claims : List RawClaim) (trans : List RawTransaction) : List ClaimOut :=
  if claims.isEmpty then []
  else
    (claims.filter (fun c => c.claim_id.isSome && c.patient_id.isSome
                             && (parseRaw c.claim_start_date).isSome)).map (claimOutOf trans)

/-- A curated claims-transaction row. -/
structure TransOut where
  transaction_id : String
  claim_id : String
  transaction_date : Int
  transaction_amount : Rat
  procedure_code : Option String
  transaction_type : Option String
  deriving DecidableEq, Repr

/-- The transactions transform: parse date and amount, drop rows missing
transaction_id, claim_id or a parseable transaction_date, uppercase the type
code. No deduplication is performed. -/
def transformTransactions (trans : List RawTransaction) : List TransOut :=
  if trans.isEmpty then []
  else
    (trans.filter (fun t => t.transaction_id.isSome && t.claim_id.isSome
                            && (parseRaw t.transaction_date).isSome)).map (fun t =>
      TransOut.mk (t.transaction_id.getD "") (t.claim_id.getD "")
        ((parseRaw t.transaction_date).getD 0) (numFill0 t.transaction_amount)
        t.procedure_code (t.type.map String.toUpper))

/-- A curated encounter row. -/
structure EncOut where
  encounter_id : String
  patient_id : String
  provider_id : Option String
  payer_id : Option String
  encounter_date : Int
  discharge_date : Option Int
  encounter_type : String
  length_of_stay_days : Int
  total_claim_cost : Rat
  payer_coverage : Rat
  deriving DecidableEq, Repr

/-- The encounters transform: parse dates, drop rows missing encounter_id,
patient_id or a parseable encounter_date, coerce the cost columns with 0
default, derive length_of_stay_days (clamped at 0, NaT difference filled with
0), fill and uppercase encounter_type. -/
def transformEncounters (encs : List RawEncounter) : List EncOut :=
  if encs.isEmpty then []
  else
    (encs.filter (fun e => e.encounter_id.isSome && e.patient_id.isSome
                           && (parseRaw e.encounter_date).isSome)).map (fun e =>
      let ed := (parseRaw e.encounter_date).getD 0
      let dd := parseRaw e.discharge_date
      let los : Int :=
        match dd with
        | none => 0
        | some d => if d - ed < 0 then 0 else d - ed
      EncOut.mk (e.encounter_id.getD "") (e.patient_id.getD "") e.provider_id e.payer_id
        ed dd (String.toUpper ((e.encounter_type).getD "Unknown")) los
        (numFill0 e.total_claim_cost) (numFill0 e.payer_coverage))

/-- A curated payer row. -/
structure PayerOut where
  payer_id : String
  payer_name : String
  deriving DecidableEq, Repr

/-- The payers transform: project to payer_id and payer_name, drop rows with
any null. -/
def transformPayers (pays : List RawPayer) : List PayerOut :=
  if pays.isEmpty then []
  else
    pays.filterMap (fun p =>
      match p.payer_id, p.payer_name with
      | some i, some n => some (PayerOut.mk i n)
      | _, _ => none)

def optStrCell : Option String → Cell
  | none => Cell.null
  | some s => Cell.str s

def optDateCell : Option Int → Cell
  | none => Cell.null
  | some d => Cell.date d

def patRow (p : PatOut) : Row :=
  [("patient_id", Cell.str p.patient_id), ("first_name", Cell.str p.first_name),
   ("last_name", Cell.str p.last_name), ("date_of_birth", Cell.date p.date_of_birth),
   ("gender", Cell.str p.gender), ("age", Cell.num (p.age : Rat)),
   ("payer_id", optStrCell p.payer_id), ("payer_name", Cell.str p.payer_name)]

def claimRow (c : ClaimOut) : Row :=
  [("claim_id", Cell.str c.claim_id), ("patient_id", Cell.str c.patient_id),
   ("provider_id", optStrCell c.provider_id),
   ("claim_start_date", Cell.date c.claim_start_date),
   ("claim_end_date", optDateCell c.claim_end_date),
   ("total_billed_amount", Cell.num c.total_billed_amount),
   ("total_paid_amount", Cell.num c.total_paid_amount),
   ("patient_responsibility_amount", Cell.num c.patient_responsibility_amount)]

def transRow (t : TransOut) : Row :=
  [("transaction_id", Cell.str t.transaction_id), ("claim_id", Cell.str t.claim_id),
   ("transaction_date", Cell.date t.transaction_date),
   ("transaction_amount", Cell.num t.transaction_amount),
   ("procedure_code", optStrCell t.procedure_code),
   ("transaction_type", optStrCell t.transaction_type)]

def encRow (e : EncOut) : Row :=
  [("encounter_id", Cell.str e.encounter_id), ("patient_id", Cell.str e.patient_id),
   ("provider_id", optStrCell e.provider_id), ("payer_id", optStrCell e.payer_id),
   ("encounter_date", Cell.date e.encounter_date),
   ("discharge_date", optDateCell e.discharge_date),
   ("encounter_type", Cell.str e.encounter_type),
   ("length_of_stay_days", Cell.num (e.length_of_stay_days : Rat)),
   ("total_claim_cost", Cell.num e.total_claim_cost),
   ("payer_coverage", Cell.num e.payer_coverage)]

def payerRow (p : PayerOut) : Row :=
  [("payer_id", Cell.str p.payer_id), ("payer_name", Cell.str p.payer_name)]

/-- Translation of SilverPatientSchema. -/
def SilverPatientSchema : List FieldSpec :=
  [{ name := "patient_id", ftype := FType.tstr, unique := true },
   { name := "first_name", ftype := FType.tstr },
   { name := "last_name", ftype := FType.tstr },
   { name := "date_of_birth", ftype := FType.tdate },
   { name := "gender", ftype := FType.tstr, isin := some ["Male", "Female", "Other", "Unknown"] },
   { name := "age", ftype := FType.tint, ge := some 0, le := some 120, coerce := true },
   { name := "payer_id", ftype := FType.tstr, nullable := true },
   { name := "payer_name", ftype := FType.tstr },
   { name := "silver_processing_timestamp", ftype := FType.tdate, coerce := true }]

/-- Translation of SilverClaimsSchema. -/
def SilverClaimsSchema : List FieldSpec :=
  [{ name := "claim_id", ftype := FType.tstr, unique := true },
   { name := "patient_id", ftype := FType.tstr },
   { name := "provider_id", ftype := FType.tstr, nullable := true },
   { name := "claim_start_date", ftype := FType.tdate, coerce := true },
   { name := "claim_end_date", ftype := FType.tdate, nullable := true, coerce := true },
   { name := "total_billed_amount", ftype := FType.tfloat, ge := some 0, coerce := true },
   { name := "total_paid_amount", ftype := FType.tfloat, ge := some 0, coerce := true },
   { name := "patient_responsibility_amount", ftype := FType.tfloat, ge := some 0, coerce := true },
   { name := "silver_processing_timestamp", ftype := FType.tdate, coerce := true }]

/-- Translation of SilverClaimsTransactionsSchema. -/
def SilverClaimsTransactionsSchema : List FieldSpec :=
  [{ name := "transaction_id", ftype := FType.tstr, unique := true },
   { name := "claim_id", ftype := FType.tstr },
   { name := "transaction_date", ftype := FType.tdate, coerce := true },
   { name := "transaction_amount", ftype := FType.tfloat, coerce := true },
   { name := "procedure_code", ftype := FType.tstr, nullable := true },
   { name := "transaction_type", ftype := FType.tstr, nullable := true },
   { name := "silver_processing_timestamp", ftype := FType.tdate, coerce := true }]

/-- Translation of SilverEncountersSchema. -/
def SilverEncountersSchema : List FieldSpec :=
  [{ name := "encounter_id", ftype := FType.tstr, unique := true },
   { name := "patient_id", ftype := FType.tstr },
   { name := "provider_id", ftype := FType.tstr, nullable := true },
   { name := "payer_id", ftype := FType.tstr, nullable := true },
   { name := "encounter_date", ftype := FType.tdate, coerce := true },
   { name := "discharge_date", ftype := FType.tdate, nullable := true, coerce := true },
   { name := "encounter_type", ftype := FType.tstr, nullable := true },
   { name := "length_of_stay_days", ftype := FType.tint, ge := some 0, coerce := true },
   { name := "total_claim_cost", ftype := FType.tfloat, ge := some 0, coerce := true },
   { name := "payer_coverage", ftype := FType.tfloat, ge := some 0, coerce := true },
   { name := "silver_processing_timestamp", ftype := FType.tdate, coerce := true }]

/-- Translation of SilverPayersSchema. -/
def SilverPayersSchema : List FieldSpec :=
  [{ name := "payer_id", ftype := FType.tstr, unique := true },
   { name := "payer_name", ftype := FType.tstr },
   { name := "silver_processing_timestamp", ftype := FType.tdate, coerce := true }]

/-- The five Bronze source frames the orchestrator extracts (a failed
extraction is already an empty frame, as in the source). -/
structure BronzeInputs where
  patients : List RawPatient
  claims : List RawClaim
  claims_transactions : List RawTransaction
  encounters : List RawEncounter
  payers : List RawPayer
  deriving DecidableEq, Repr

/-- Database outcomes for the five per-table loads. -/
structure DBOutcomes where
  patientsDB : DBOutcome
  claimsDB : DBOutcome
  transDB : DBOutcome
  encountersDB : DBOutcome
  payersDB : DBOutcome
  deriving DecidableEq, Repr

/-- The five candidate Silver tables, in orchestration order. -/
def silverTables (ts : Int) (b : BronzeInputs) : List Table :=
  [(transformPatients ts b.patients b.encounters b.payers).map patRow,
   (transformClaims b.claims b.claims_transactions).map claimRow,
   (transformTransactions b.claims_transactions).map transRow,
   (transformEncounters b.encounters).map encRow,
   (transformPayers b.payers).map payerRow]

def silverTableNames : List String :=
  ["silver_patients_dim", "silver_claims_fact", "silver_claims_transactions_fact",
   "silver_encounters_fact", "silver_payers_dim"]

def silverSchemas : List (List FieldSpec) :=
  [SilverPatientSchema, SilverClaimsSchema, SilverClaimsTransactionsSchema,
   SilverEncountersSchema, SilverPayersSchema]

def dbList (db : DBOutcomes) : List DBOutcome :=
  [db.patientsDB, db.claimsDB, db.transDB, db.encountersDB, db.payersDB]

/-- One orchestration step folded over the five tables. -/
def loadStep (ts : Int) (acc : RunStats × List (Option Table))
    (x : Table × String × List FieldSpec × DBOutcome) : RunStats × List (Option Table) :=
  let r := loadToSilver ts x.2.2.2 x.1 x.2.1 x.2.2.1 acc.1
  (r.1, acc.2 ++ [r.2])

/-- Translation of load_silver: every one of the five tables is transformed
and handed to the loader in sequence, then the run is summarized. -/
def loadSilver (ts : Int) (b : BronzeInputs) (db : DBOutcomes) : RunStats × List (Option Table) :=
  (((silverTables ts b).zip (silverTableNames.zip (silverSchemas.zip (dbList db))))).foldl
    (loadStep ts) (initStats, [])

/-- Translation of the main block: a connection failure at initialization
aborts before any table is attempted; otherwise the whole run executes. -/
def runSilverMain (connOk : Bool) (ts : Int) (b : BronzeInputs) (db : DBOutcomes) :
    Option (RunStats × List (Option Table)) :=
  if connOk then some (loadSilver ts b db) else none

theorem cellViolations_eq_nil_iff (sp : FieldSpec) (i : Nat) (c : Cell) :
    cellViolations sp i c = [] ↔ CellSat sp c := by
  unfold cellViolations CellSat
  by_cases hc : c = Cell.null
  · subst hc
    cases hn : sp.nullable <;> simp [hn]
  · cases ht : typeOk sp.ftype c <;> cases hk : checkOk sp c <;> simp [hc, ht, hk]

theorem mem_cellViolations (sp : FieldSpec) (i : Nat) (c : Cell) (v : Violation)
    (h : v ∈ cellViolations sp i c) : v.field = sp.name ∧ v.row = i ∧ v.value = c := by
  unfold cellViolations at h
  split at h
  · split at h <;> simp_all
  · split at h
    · simp_all
    · split at h <;> simp_all

theorem uniqueViolations_eq_nil_iff (sp : FieldSpec) (t : Table) :
    uniqueViolations sp t = [] ↔ (sp.unique = true → (colValues t sp.name).Nodup) := by
  unfold uniqueViolations
  split
  case isFalse hu =>
    simp only [Bool.not_eq_true] at hu
    simp [hu]
  case isTrue hu =>
    simp only [hu, forall_const, true_iff, true_implies]
    rw [List.filterMap_eq_nil_iff, List.nodup_iff_count_le_one]
    constructor
    · intro h a
      by_cases ha : a ∈ colValues t sp.name
      · obtain ⟨i, hi, rfl⟩ := List.getElem_of_mem ha
        have h1 := h i (List.mem_range.mpr hi)
        rw [List.getD_eq_getElem _ _ hi] at h1
        by_contra hc
        push_neg at hc
        have hc2 : 2 ≤ List.count (colValues t sp.name)[i] (colValues t sp.name) := hc
        rw [if_pos hc2] at h1
        cases h1
      · simp [List.count_eq_zero_of_not_mem ha]
    · intro h i hi
      have hcnt := h ((colValues t sp.name).getD i Cell.null)
      simp only [ite_eq_right_iff]
      intro hc
      exact absurd hc (by omega)

theorem mem_uniqueViolations_intro (sp : FieldSpec) (t : Table) (i : Nat)
    (hu : sp.unique = true) (hi : i < (colValues t sp.name).length)
    (hc : 2 ≤ (colValues t sp.name).count ((colValues t sp.name).getD i Cell.null)) :
    (⟨sp.name, i, (colValues t sp.name).getD i Cell.null,
      "duplicate value in unique field"⟩ : Violation) ∈ uniqueViolations sp t := by
  unfold uniqueViolations
  rw [if_pos hu]
  refine List.mem_filterMap.mpr ⟨i, List.mem_range.mpr hi, ?_⟩
  simp only [if_pos hc]

theorem mem_uniqueViolations_elim (sp : FieldSpec) (t : Table) (v : Violation)
    (h : v ∈ uniqueViolations sp t) :
    v.field = sp.name ∧ v.reason = "duplicate value in unique field" := by
  unfold uniqueViolations at h
  split at h
  case isTrue =>
    obtain ⟨i, _, hv⟩ := List.mem_filterMap.mp h
    split at hv
    · cases hv; exact ⟨rfl, rfl⟩
    · cases hv
  case isFalse => cases h

theorem fieldViolations_eq_nil_iff (sp : FieldSpec) (t : Table) :
    fieldViolations sp t = [] ↔ FieldSat sp t := by
  unfold fieldViolations FieldSat
  rw [List.append_eq_nil, List.flatten_eq_nil_iff]
  rw [uniqueViolations_eq_nil_iff]
  constructor
  · rintro ⟨h1, h2⟩
    refine ⟨fun i hi => ?_, h2⟩
    have := h1 _ (List.mem_map.mpr ⟨i, List.mem_range.mpr hi, rfl⟩)
    exact (cellViolations_eq_nil_iff _ _ _).mp this
  · rintro ⟨h1, h2⟩
    refine ⟨fun l hl => ?_, h2⟩
    obtain ⟨i, hi, rfl⟩ := List.mem_map.mp hl
    exact (cellViolations_eq_nil_iff _ _ _).mpr (h1 i (List.mem_range.mp hi))

theorem collectViolations_eq_nil_iff (sch : List FieldSpec) (t : Table) :
    collectViolations sch t = [] ↔ TableSat sch t := by
  unfold collectViolations TableSat
  rw [List.flatten_eq_nil_iff]
  constructor
  · intro h sp hs
    exact (fieldViolations_eq_nil_iff _ _).mp (h _ (List.mem_map.mpr ⟨sp, hs, rfl⟩))
  · intro h l hl
    obtain ⟨sp, hs, rfl⟩ := List.mem_map.mp hl
    exact (fieldViolations_eq_nil_iff _ _).mpr (h sp hs)

theorem mem_collect_of_cell (sch : List FieldSpec) (t : Table) (sp : FieldSpec) (i : Nat)
    (v : Violation) (hs : sp ∈ sch) (hi : i < t.length)
    (h : v ∈ cellViolations sp i (getCell (t.getD i []) sp.name)) :
    v ∈ collectViolations sch t := by
  unfold collectViolations
  refine List.mem_flatten.mpr ⟨fieldViolations sp t, List.mem_map.mpr ⟨sp, hs, rfl⟩, ?_⟩
  unfold fieldViolations
  refine List.mem_append.mpr (Or.inl ?_)
  exact List.mem_flatten.mpr ⟨_, List.mem_map.mpr ⟨i, List.mem_range.mpr hi, rfl⟩, h⟩

theorem mem_collect_of_unique (sch : List FieldSpec) (t : Table) (sp : FieldSpec)
    (v : Violation) (hs : sp ∈ sch) (h : v ∈ uniqueViolations sp t) :
    v ∈ collectViolations sch t := by
  unfold collectViolations
  refine List.mem_flatten.mpr ⟨fieldViolations sp t, List.mem_map.mpr ⟨sp, hs, rfl⟩, ?_⟩
  exact List.mem_append.mpr (Or.inr h)

theorem validateTable_error_of_mem (sch : List FieldSpec) (t : Table) (v : Violation)
    (h : v ∈ collectViolations sch (coerceTable sch t)) :
    validateTable sch t = Except.error (collectViolations sch (coerceTable sch t)) := by
  unfold validateTable
  rw [if_neg]
  simp only [List.isEmpty_iff]
  intro hnil
  rw [hnil] at h
  cases h

/-- The failure entry (if any) that one table load contributes to the run
statistics, mirroring the branch structure of the loader: empty frame or
database exception give the bare table name, a validation rejection gives the
name with the Schema Validation marker, success gives none. -/
def tableFailEntry (ts : Int) (db : DBOutcome) (df : Table) (tname : String)
    (sch : List FieldSpec) : Option String :=
  if df.isEmpty then some tname
  else if db.ddlOk = false then some tname
  else
    match validateTable sch (addTimestampCol ts df) with
    | Except.error _ => some (tname ++ " (Schema Validation)")
    | Except.ok _ => if db.writeOk = false then some tname else none

theorem loadToSilver_char (ts : Int) (db : DBOutcome) (df : Table) (tname : String)
    (sch : List FieldSpec) (stats : RunStats) :
    loadToSilver ts db df tname sch stats =
      (match tableFailEntry ts db df tname sch with
       | some e => ({ stats with failed_tables := stats.failed_tables ++ [e] }, none)
       | none =>
          ({ stats with
              loaded_tables := stats.loaded_tables + 1,
              total_records := stats.total_records +
                ((validateTable sch (addTimestampCol ts df)).toOption.getD []).length },
           (validateTable sch (addTimestampCol ts df)).toOption)) := by
  unfold loadToSilver tableFailEntry
  by_cases he : df.isEmpty
  · simp [he]
  · simp only [he, if_false, Bool.false_eq_true]
    by_cases hd : db.ddlOk = false
    · simp [hd]
    · simp only [hd, if_false]
      cases hv : validateTable sch (addTimestampCol ts df)
      · simp
      · by_cases hw : db.writeOk = false <;> simp [hw, Except.toOption]

/-- C1: validation is exhaustive, not fail-fast. On zero violations the
validated table satisfies every declared constraint of its schema (type,
non-null where required, unique where required, range and enumeration); on
any violation it fails with the complete violation list (every violating
field/row pair is represented), and the loader records this per table with
the Schema Validation marker instead of raising. -/
theorem claim_C1 (sch : List FieldSpec) (t : Table) :
    (∀ tv, validateTable sch t = Except.ok tv →
       tv = coerceTable sch t ∧ TableSat sch tv) ∧
    (∀ vs, validateTable sch t = Except.error vs →
       vs ≠ [] ∧ vs = collectViolations sch (coerceTable sch t) ∧
       (∀ sp ∈ sch, ∀ i, i < t.length →
          ¬ CellSat sp (getCell ((coerceTable sch t).getD i []) sp.name) →
          ∃ v ∈ vs, v.field = sp.name ∧ v.row = i) ∧
       (∀ sp ∈ sch, sp.unique = true → ¬ (colValues (coerceTable sch t) sp.name).Nodup →
          ∃ v ∈ vs, v.field = sp.name)) ∧
    (∀ ts db tname stats vs, t ≠ [] → db.ddlOk = true →
       validateTable sch (addTimestampCol ts t) = Except.error vs →
       loadToSilver ts db t tname sch stats =
         ({ stats with
             failed_tables := stats.failed_tables ++ [tname ++ " (Schema Validation)"] },
          none)) := by
  refine ⟨?_, ?_, ?_⟩
  · intro tv h
    unfold validateTable at h
    split at h
    case isTrue hemp =>
      cases h
      refine ⟨rfl, ?_⟩
      exact (collectViolations_eq_nil_iff _ _).mp (List.isEmpty_iff.mp hemp)
    case isFalse hemp => cases h
  · intro vs h
    unfold validateTable at h
    split at h
    case isTrue hemp => cases h
    case isFalse hemp =>
      cases h
      refine ⟨fun hnil => hemp (by rw [hnil]; rfl), rfl, ?_, ?_⟩
      · intro sp hs i hi hns
        have hne : cellViolations sp i (getCell ((coerceTable sch t).getD i []) sp.name) ≠ [] := by
          intro hnil
          exact hns ((cellViolations_eq_nil_iff _ _ _).mp hnil)
        obtain ⟨v, hv⟩ := List.exists_mem_of_ne_nil _ hne
        have hi' : i < (coerceTable sch t).length := by
          unfold coerceTable
          rw [List.length_map]
          exact hi
        refine ⟨v, mem_collect_of_cell _ _ _ _ _ hs hi' hv, ?_⟩
        have := mem_cellViolations _ _ _ _ hv
        exact ⟨this.1, this.2.1⟩
      · intro sp hs hu hnd
        have hne : uniqueViolations sp (coerceTable sch t) ≠ [] := by
          intro hnil
          exact hnd (((uniqueViolations_eq_nil_iff _ _).mp hnil) hu)
        obtain ⟨v, hv⟩ := List.exists_mem_of_ne_nil _ hne
        exact ⟨v, mem_collect_of_unique _ _ _ _ hs hv, (mem_uniqueViolations_elim _ _ _ hv).1⟩
  · intro ts db tname stats vs hne hddl hv
    unfold loadToSilver
    rw [if_neg (by simpa using hne), if_neg (by simp [hddl]), hv]

/-- Witness for C1 at a concrete payers table that validates cleanly. -/
theorem claim_C1_witness :
    coerceTable SilverPayersSchema
        [[("payer_id", Cell.str "A"), ("payer_name", Cell.str "Acme"),
          ("silver_processing_timestamp", Cell.date 0)]]
      = coerceTable SilverPayersSchema
          [[("payer_id", Cell.str "A"), ("payer_name", Cell.str "Acme"),
            ("silver_processing_timestamp", Cell.date 0)]] ∧
    TableSat SilverPayersSchema
      (coerceTable SilverPayersSchema
        [[("payer_id", Cell.str "A"), ("payer_name", Cell.str "Acme"),
          ("silver_processing_timestamp", Cell.date 0)]]) :=
  (claim_C1 SilverPayersSchema _).1 _ (by rfl)

/-- The failure entry of one zipped orchestration step. -/
def stepEntry (ts : Int) (x : Table × String × List FieldSpec × DBOutcome) : Option String :=
  tableFailEntry ts x.2.2.2 x.1 x.2.1 x.2.2.1

/-- The loaded table (if any) of one zipped orchestration step; depends only
on the step itself, never on the statistics accumulated so far. -/
def stepLoad (ts : Int) (x : Table × String × List FieldSpec × DBOutcome) : Option Table :=
  (loadToSilver ts x.2.2.2 x.1 x.2.1 x.2.2.1 initStats).2

theorem loadStep_char (ts : Int) (acc : RunStats × List (Option Table))
    (x : Table × String × List FieldSpec × DBOutcome) :
    (loadStep ts acc x).1.failed_tables
        = acc.1.failed_tables ++ (stepEntry ts x).toList ∧
    (loadStep ts acc x).1.loaded_tables + (loadStep ts acc x).1.failed_tables.length
        = acc.1.loaded_tables + acc.1.failed_tables.length + 1 ∧
    (loadStep ts acc x).2 = acc.2 ++ [stepLoad ts x] := by
  unfold loadStep stepEntry stepLoad
  rw [loadToSilver_char, loadToSilver_char]
  cases tableFailEntry ts x.2.2.2 x.1 x.2.1 x.2.2.1 <;> simp <;> omega

theorem foldl_loadStep_char (ts : Int) (xs : List (Table × String × List FieldSpec × DBOutcome))
    (acc : RunStats × List (Option Table)) :
    (xs.foldl (loadStep ts) acc).1.failed_tables
        = acc.1.failed_tables ++ xs.filterMap (stepEntry ts) ∧
    (xs.foldl (loadStep ts) acc).1.loaded_tables
          + (xs.foldl (loadStep ts) acc).1.failed_tables.length
        = acc.1.loaded_tables + acc.1.failed_tables.length + xs.length ∧
    (xs.foldl (loadStep ts) acc).2 = acc.2 ++ xs.map (stepLoad ts) := by
  induction xs generalizing acc with
  | nil => simp
  | cons x xs ih =>
    simp only [List.foldl_cons, List.filterMap_cons, List.map_cons, List.length_cons]
    obtain ⟨h1, h2, h3⟩ := ih (loadStep ts acc x)
    obtain ⟨g1, g2, g3⟩ := loadStep_char ts acc x
    refine ⟨?_, ?_, ?_⟩
    · rw [h1, g1]
      cases stepEntry ts x <;> simp
    · omega
    · rw [h3, g3]
      simp

/-- C2: all five target tables are attempted in sequence regardless of any
individual failure: the run produces exactly five per-table outcomes, each
table contributes one unit to loaded-plus-failed, the failed list is exactly
the per-table failure entries (with the Schema Validation marker exactly for
validation rejections, per tableFailEntry), the loaded outcome of each table
depends only on the step of that table, and only a connection failure at
initialization aborts the whole process. -/
theorem claim_C2 (connOk : Bool) (ts : Int) (b : BronzeInputs) (db : DBOutcomes) :
    (runSilverMain connOk ts b db = none ↔ connOk = false) ∧
    (∀ res, runSilverMain connOk ts b db = some res →
       res.2.length = 5 ∧
       res.1.loaded_tables + res.1.failed_tables.length = 5 ∧
       res.1.failed_tables
         = ((silverTables ts b).zip
             (silverTableNames.zip (silverSchemas.zip (dbList db)))).filterMap (stepEntry ts) ∧
       res.2
         = ((silverTables ts b).zip
             (silverTableNames.zip (silverSchemas.zip (dbList db)))).map (stepLoad ts)) := by
  constructor
  · unfold runSilverMain
    cases connOk <;> simp
  · intro res hres
    unfold runSilverMain at hres
    cases connOk
    · cases hres
    · simp only [if_pos rfl] at hres
      cases hres
      have hlen : ((silverTables ts b).zip
          (silverTableNames.zip (silverSchemas.zip (dbList db)))).length = 5 := by
        simp [silverTables, silverTableNames, silverSchemas, dbList]
      obtain ⟨h1, h2, h3⟩ := foldl_loadStep_char ts
        ((silverTables ts b).zip (silverTableNames.zip (silverSchemas.zip (dbList db))))
        (initStats, [])
      unfold loadSilver
      refine ⟨?_, ?_, ?_, ?_⟩
      · rw [h3]
        simp [hlen]
      · rw [h2, hlen]; rfl
      · rw [h1]; rfl
      · rw [h3]; rfl

/-- Witness for C2 at a concrete run: empty Bronze inputs, all database
operations succeeding; every table fails as empty, none is skipped. -/
theorem claim_C2_witness :
    (loadSilver 0 ⟨[], [], [], [], []⟩
        ⟨⟨true, true⟩, ⟨true, true⟩, ⟨true, true⟩, ⟨true, true⟩, ⟨true, true⟩⟩).1.loaded_tables
      + (loadSilver 0 ⟨[], [], [], [], []⟩
          ⟨⟨true, true⟩, ⟨true, true⟩, ⟨true, true⟩, ⟨true, true⟩, ⟨true, true⟩⟩).1.failed_tables.length
      = 5 :=
  ((claim_C2 true 0 ⟨[], [], [], [], []⟩
      ⟨⟨true, true⟩, ⟨true, true⟩, ⟨true, true⟩, ⟨true, true⟩, ⟨true, true⟩⟩).2 _ rfl).2.1

/-- C9: the Silver transforms are deterministic: two runs on identical Bronze
inputs with the same fixed processing timestamp produce identical curated
tables (and identical load results against equal database outcomes). -/
theorem claim_C9 (ts1 ts2 : Int) (b1 b2 : BronzeInputs) (db : DBOutcomes)
    (hts : ts1 = ts2) (hb : b1 = b2) :
    silverTables ts1 b1 = silverTables ts2 b2 ∧
    loadSilver ts1 b1 db = loadSilver ts2 b2 db := by
  subst hts
  subst hb
  exact ⟨rfl, rfl⟩

/-- Witness for C9 at a concrete input. -/
theorem claim_C9_witness :
    silverTables 19723 ⟨[⟨some "P1", some "a", some "b", RawVal.val 0, some "F"⟩], [], [], [], []⟩
      = silverTables 19723 ⟨[⟨some "P1", some "a", some "b", RawVal.val 0, some "F"⟩], [], [], [], []⟩ ∧
    loadSilver 19723 ⟨[⟨some "P1", some "a", some "b", RawVal.val 0, some "F"⟩], [], [], [], []⟩
        ⟨⟨true, true⟩, ⟨true, true⟩, ⟨true, true⟩, ⟨true, true⟩, ⟨true, true⟩⟩
      = loadSilver 19723 ⟨[⟨some "P1", some "a", some "b", RawVal.val 0, some "F"⟩], [], [], [], []⟩
          ⟨⟨true, true⟩, ⟨true, true⟩, ⟨true, true⟩, ⟨true, true⟩, ⟨true, true⟩⟩ :=
  claim_C9 19723 19723 _ _ _ rfl rfl

theorem mem_enrichName (pcs : List (String × String)) (cp : PatCore × Option String)
    (r : PatOut) (h : r ∈ enrichName pcs cp) : ∃ pname, r = mkPatOut cp.1 cp.2 pname := by
  unfold enrichName at h
  split at h
  · simp only [List.mem_singleton] at h
    exact ⟨defaultPayer, h⟩
  · obtain ⟨pc, _, rfl⟩ := List.mem_map.mp h
    exact ⟨pc.2, rfl⟩

theorem mem_patientsWithPayer (ts : Int) (encs : List RawEncounter) (pats : List RawPatient)
    (cp : PatCore × Option String) (h : cp ∈ patientsWithPayer ts encs pats) :
    ∃ p ∈ pats.filter patientRequired, cp.1 = patientCore ts p := by
  unfold patientsWithPayer at h
  split at h <;>
  · obtain ⟨c, hc, rfl⟩ := List.mem_map.mp h
    obtain ⟨p, hp, rfl⟩ := List.mem_map.mp hc
    exact ⟨p, hp, rfl⟩

theorem mem_transformPatients (ts : Int) (pats : List RawPatient) (encs : List RawEncounter)
    (pays : List RawPayer) (r : PatOut) (h : r ∈ transformPatients ts pats encs pays) :
    ∃ p ∈ pats.filter patientRequired, ∃ pid pname, r = mkPatOut (patientCore ts p) pid pname := by
  unfold transformPatients at h
  split at h
  case isTrue => cases h
  case isFalse =>
    revert h
    cases hb : transformPatientsBody ts pats encs pays with
    | error e => intro h; cases h
    | ok l =>
      intro h
      unfold transformPatientsBody at hb
      split at hb
      case isTrue => cases hb
      case isFalse =>
        split at hb
        case isTrue =>
          cases hb
          obtain ⟨cp, hcp, rfl⟩ := List.mem_map.mp h
          obtain ⟨p, hp, hc⟩ := mem_patientsWithPayer ts encs pats cp hcp
          exact ⟨p, hp, none, defaultPayer, by rw [hc]⟩
        case isFalse =>
          split at hb
          case isTrue => cases hb
          case isFalse =>
            cases hb
            obtain ⟨cp, hcp, hr⟩ := List.mem_flatMap.mp h
            obtain ⟨p, hp, hc⟩ := mem_patientsWithPayer ts encs pats cp hcp
            obtain ⟨pname, rfl⟩ := mem_enrichName _ _ _ hr
            exact ⟨p, hp, cp.2, pname, by rw [hc]⟩

/-- C5 counterexample to the floor claim: with the processing timestamp at
2024-01-01 (day 19723) and date_of_birth one day later (2024-01-02), the code
computes age 0 (astype(int) truncates toward zero) while
floor((ts - dob) / 365.25) is -1. -/
theorem claim_C5_counterexample :
    (transformPatients 19723
        [⟨some "P1", some "ana", some "silva", RawVal.val 19724, some "F"⟩] [] []).map
        (fun r => r.age) = [0] ∧
    ⌊(Rat.ofInt (19723 - 19724)) / ((1461 : Rat) / 4)⌋ = -1 := by
  constructor
  · simp only [transformPatients, transformPatientsBody, patientsWithPayer]
    norm_num [patientRequired, parseRaw, rawNotNull, mkPatOut, patientCore,
      patientAge, ratTrunc, Rat.ofInt, List.filter]
  · norm_num [Rat.ofInt]

/-- C5 amended: for every surviving patient row, age equals the truncation
toward zero (not the floor) of (processing_timestamp minus date_of_birth) in
days divided by 365.25, computed with the single fixed processing
timestamp; truncation and floor agree whenever date_of_birth is not after the
processing timestamp, and in particular date_of_birth 2000-01-01 (day 10957)
with processing timestamp 2024-01-01 (day 19723) gives age 24. -/
theorem claim_C5 :
    (∀ ts pats encs pays r, r ∈ transformPatients ts pats encs pays →
       r.age = ratTrunc ((Rat.ofInt (ts - r.date_of_birth)) / ((1461 : Rat) / 4))) ∧
    (transformPatients 19723
        [⟨some "P1", some "ana", some "silva", RawVal.val 10957, some "F"⟩] [] []).map
        (fun r => r.age) = [24] := by
  constructor
  · intro ts pats encs pays r h
    obtain ⟨p, hp, pid, pname, rfl⟩ := mem_transformPatients ts pats encs pays r h
    simp [mkPatOut, patientCore, patientAge]
  · simp only [transformPatients, transformPatientsBody, patientsWithPayer]
    norm_num [patientRequired, parseRaw, rawNotNull, mkPatOut, patientCore,
      patientAge, ratTrunc, Rat.ofInt, List.filter]

/-- Witness for C5: the general part applied to the concrete 2000-01-01 /
2024-01-01 patient. -/
theorem claim_C5_witness :
    (mkPatOut (patientCore 19723 ⟨some "P1", some "ana", some "silva", RawVal.val 10957, some "F"⟩)
        none defaultPayer).age
      = ratTrunc ((Rat.ofInt (19723 -
          (mkPatOut (patientCore 19723
              ⟨some "P1", some "ana", some "silva", RawVal.val 10957, some "F"⟩)
            none defaultPayer).date_of_birth)) / ((1461 : Rat) / 4)) :=
  claim_C5.1 19723 [⟨some "P1", some "ana", some "silva", RawVal.val 10957, some "F"⟩] [] [] _
    (by simp [transformPatients, transformPatientsBody, patientsWithPayer, patientRequired,
          parseRaw, rawNotNull])

theorem coerceTable_getD (sch : List FieldSpec) (t : Table) (i : Nat) (hi : i < t.length) :
    (coerceTable sch t).getD i [] = coerceRow sch (t.getD i []) := by
  unfold coerceTable
  rw [List.getD_eq_getElem _ _ (by simpa using hi), List.getElem_map,
    List.getD_eq_getElem _ _ hi]

theorem coerceRow_gender (r : Row) :
    getCell (coerceRow SilverPatientSchema r) "gender" = getCell r "gender" := rfl

/-- C7: the patient transform normalizes gender codes M, F, O to Male,
Female, Other; a missing gender becomes Unknown; any other non-null value
passes through unchanged; every output gender is the normalization of the
gender of some input patient; and a table with an unrecognized gender value such as
X is rejected by validation with a violation on the gender field. -/
theorem claim_C7 :
    (∀ ts pats encs pays r, r ∈ transformPatients ts pats encs pays →
       ∃ p ∈ pats, r.gender = genderNorm p.gender) ∧
    genderNorm (some "M") = "Male" ∧ genderNorm (some "F") = "Female" ∧
    genderNorm (some "O") = "Other" ∧ genderNorm none = "Unknown" ∧
    (∀ g, g ≠ "M" → g ≠ "F" → g ≠ "O" → genderNorm (some g) = g) ∧
    (∀ t i, i < t.length →
       getCell (t.getD i []) "gender" = Cell.str "X" →
       ∃ vs, validateTable SilverPatientSchema t = Except.error vs ∧
         ∃ v ∈ vs, v.field = "gender" ∧ v.row = i ∧ v.value = Cell.str "X") := by
  refine ⟨?_, rfl, rfl, rfl, rfl, ?_, ?_⟩
  · intro ts pats encs pays r h
    obtain ⟨p, hp, pid, pname, rfl⟩ := mem_transformPatients ts pats encs pays r h
    exact ⟨p, List.mem_of_mem_filter hp, by simp [mkPatOut, patientCore]⟩
  · intro g h1 h2 h3
    simp [genderNorm, h1, h2, h3]
  · intro t i hi hx
    have hlen : i < (coerceTable SilverPatientSchema t).length := by
      unfold coerceTable
      rw [List.length_map]
      exact hi
    have hv : (⟨"gender", i, Cell.str "X", "value fails range or enumeration check"⟩ :
        Violation) ∈ cellViolations
          (⟨"gender", FType.tstr, false, false, none, none,
            some ["Male", "Female", "Other", "Unknown"], false⟩ : FieldSpec) i
          (getCell ((coerceTable SilverPatientSchema t).getD i [])
            (FieldSpec.name ⟨"gender", FType.tstr, false, false, none, none,
              some ["Male", "Female", "Other", "Unknown"], false⟩)) := by
      rw [show (FieldSpec.name ⟨"gender", FType.tstr, false, false, none, none,
            some ["Male", "Female", "Other", "Unknown"], false⟩) = "gender" from rfl,
        coerceTable_getD _ _ _ hi, coerceRow_gender, hx]
      simp [cellViolations, typeOk, checkOk]
    have hmem := mem_collect_of_cell SilverPatientSchema (coerceTable SilverPatientSchema t)
      _ i _ (by decide) hlen hv
    refine ⟨collectViolations SilverPatientSchema (coerceTable SilverPatientSchema t),
      validateTable_error_of_mem _ _ _ hmem, _, hmem, rfl, rfl, rfl⟩

/-- Witness for C7: a concrete patient with gender X passes through the
transform unchanged and a concrete table holding gender X is rejected on the
gender field. -/
theorem claim_C7_witness :
    (∃ p ∈ [(⟨some "P3", some "joe", some "doe", RawVal.val 0, some "X"⟩ : RawPatient)],
       (mkPatOut (patientCore 0 ⟨some "P3", some "joe", some "doe", RawVal.val 0, some "X"⟩)
          none defaultPayer).gender = genderNorm p.gender) ∧
    (∃ vs, validateTable SilverPatientSchema [[("gender", Cell.str "X")]] = Except.error vs ∧
       ∃ v ∈ vs, v.field = "gender" ∧ v.row = 0 ∧ v.value = Cell.str "X") :=
  ⟨claim_C7.1 0 [⟨some "P3", some "joe", some "doe", RawVal.val 0, some "X"⟩] [] [] _
      (by simp [transformPatients, transformPatientsBody, patientsWithPayer, patientRequired,
            parseRaw, rawNotNull]),
   claim_C7.2.2.2.2.2.2 [[("gender", Cell.str "X")]] 0 (by decide) (by decide)⟩

/-- C10: a non-null unparseable date_of_birth survives the required-field
drop, the subsequent age conversion fails on the resulting NaT, the exception
is caught, and the whole patients transform returns an empty table — one
malformed date removes every patient, including well-formed ones, from the
candidate output. -/
theorem claim_C10 :
    (∀ ts pats encs pays p, p ∈ pats → patientRequired p = true →
       p.date_of_birth = RawVal.invalid →
       transformPatients ts pats encs pays = []) ∧
    transformPatients 19723
      [⟨some "P1", some "ana", some "silva", RawVal.val 10957, some "F"⟩,
       ⟨some "P2", some "bob", some "reis", RawVal.invalid, some "M"⟩] [] [] = [] ∧
    transformPatients 19723
      [⟨some "P1", some "ana", some "silva", RawVal.val 10957, some "F"⟩] [] [] ≠ [] := by
  refine ⟨?_, ?_, ?_⟩
  · intro ts pats encs pays p hp hreq hdob
    have hne : pats.isEmpty = false := by
      cases pats
      · cases hp
      · rfl
    have hany : (pats.filter patientRequired).any
        (fun p => (parseRaw p.date_of_birth).isNone) = true := by
      rw [List.any_eq_true]
      exact ⟨p, List.mem_filter.mpr ⟨hp, hreq⟩, by rw [hdob]; rfl⟩
    unfold transformPatients transformPatientsBody
    rw [hne, hany]
    simp
  · simp [transformPatients, transformPatientsBody, patientsWithPayer, patientRequired,
      parseRaw, rawNotNull, List.filter]
  · simp [transformPatients, transformPatientsBody, patientsWithPayer, patientRequired,
      parseRaw, rawNotNull, List.filter]

/-- Witness for C10: the general part applied to a concrete patient whose
date_of_birth is present but unparseable. -/
theorem claim_C10_witness :
    transformPatients 0 [⟨some "P9", some "x", some "y", RawVal.invalid, none⟩] [] [] = [] :=
  claim_C10.1 0 [⟨some "P9", some "x", some "y", RawVal.invalid, none⟩] [] []
    ⟨some "P9", some "x", some "y", RawVal.invalid, none⟩ (by decide) (by decide) rfl

/-- C6: for every surviving encounter row, length_of_stay_days equals the
whole-day difference discharge minus encounter clamped to a minimum of 0, is
0 (not null) when discharge_date is missing, and in particular an encounter
on 2024-01-10 (day 19732) discharged 2024-01-08 (day 19730) yields 0. -/
theorem claim_C6 (encs : List RawEncounter) (r : EncOut)
    (h : r ∈ transformEncounters encs) :
    (r.length_of_stay_days = match r.discharge_date with
       | none => 0
       | some d => max (d - r.encounter_date) 0) ∧
    (r.discharge_date = none → r.length_of_stay_days = 0) ∧
    (transformEncounters
        [⟨some "E1", some "P1", none, none, RawVal.val 19732, RawVal.val 19730, none,
          RawVal.val 0, RawVal.val 0⟩]).map (fun e => e.length_of_stay_days) = [0] := by
  have hmain : r.length_of_stay_days = match r.discharge_date with
      | none => 0
      | some d => max (d - r.encounter_date) 0 := by
    unfold transformEncounters at h
    split at h
    case isTrue => cases h
    case isFalse =>
      obtain ⟨e, he, rfl⟩ := List.mem_map.mp h
      cases hdd : parseRaw e.discharge_date with
      | none => simp [hdd]
      | some d =>
        by_cases hlt : d - (parseRaw e.encounter_date).getD 0 < 0
        · simp only [hdd, if_pos hlt]
          rw [max_eq_right (by omega : d - (parseRaw e.encounter_date).getD 0 ≤ 0)]
        · simp only [hdd, if_neg hlt]
          rw [max_eq_left (by omega : (0 : Int) ≤ d - (parseRaw e.encounter_date).getD 0)]
  refine ⟨hmain, ?_, ?_⟩
  · intro hnone
    rw [hmain, hnone]
  · simp [transformEncounters, parseRaw, numFill0, List.filter]

/-- Witness for C6 at the concrete data-error encounter. -/
theorem claim_C6_witness :
    (EncOut.mk "E1" "P1" none none 19732 (some 19730)
        (String.toUpper "Unknown") 0 0 0).length_of_stay_days
      = match (EncOut.mk "E1" "P1" none none 19732 (some 19730)
          (String.toUpper "Unknown") 0 0 0).discharge_date with
        | none => 0
        | some d => max (d - (EncOut.mk "E1" "P1" none none 19732 (some 19730)
            (String.toUpper "Unknown") 0 0 0).encounter_date) 0 :=
  (claim_C6 [⟨some "E1", some "P1", none, none, RawVal.val 19732, RawVal.val 19730, none,
      RawVal.val 0, RawVal.val 0⟩] _
    (by simp [transformEncounters, parseRaw, numFill0, List.filter])).1

theorem find?_eq_key (l : List String) (c : String) :
    l.find? (fun x => x == c) = if c ∈ l then some c else none := by
  induction l with
  | nil => simp
  | cons x xs ih =>
    by_cases hx : x = c
    · subst hx
      simp
    · rw [List.find?_cons_of_neg _ (by simpa using hx), ih]
      simp [hx, List.mem_cons, Ne.symm hx]

theorem claimFinancials_find? (trans : List RawTransaction) (c : String) :
    (claimFinancials trans).find? (fun p => p.1 == c)
      = if c ∈ claimIdsOf trans then some (c, sumsFor trans c) else none := by
  unfold claimFinancials
  rw [List.find?_map]
  have : ((fun p : String × Rat × Rat × Rat => p.1 == c) ∘
      (fun x => (x, sumsFor trans x))) = fun x => x == c := rfl
  rw [this, find?_eq_key]
  split <;> simp

theorem filter_claim_id_nil (trans : List RawTransaction) (c : String)
    (hc : c ∉ claimIdsOf trans) :
    trans.filter (fun t => t.claim_id == some c) = [] := by
  rw [List.filter_eq_nil_iff]
  intro t ht
  intro hbeq
  apply hc
  unfold claimIdsOf
  rw [List.mem_dedup]
  refine List.mem_filterMap.mpr ⟨t, ht, ?_⟩
  simpa using hbeq

/-- C4: for every claim row surviving the required-field drop,
total_billed_amount, total_paid_amount and patient_responsibility_amount are
the sums of the coerced transaction_amount, payments and outstanding values
over the transactions with the same claim_id (non-numeric values coerce to
0); a claim with no matching transactions, or an empty transactions source,
gets 0 (a value, not null) for all three. -/
theorem claim_C4 (claims : List RawClaim) (trans : List RawTransaction) (r : ClaimOut)
    (h : r ∈ transformClaims claims trans) :
    r.total_billed_amount = ((trans.filter (fun t => t.claim_id == some r.claim_id)).map
        (fun t => numFill0 t.transaction_amount)).sum ∧
    r.total_paid_amount = ((trans.filter (fun t => t.claim_id == some r.claim_id)).map
        (fun t => numFill0 t.payments)).sum ∧
    r.patient_responsibility_amount = ((trans.filter (fun t => t.claim_id == some r.claim_id)).map
        (fun t => numFill0 t.outstanding)).sum ∧
    (trans.filter (fun t => t.claim_id == some r.claim_id) = [] →
       r.total_billed_amount = 0 ∧ r.total_paid_amount = 0 ∧
       r.patient_responsibility_amount = 0) ∧
    numFill0 RawVal.invalid = 0 ∧ numFill0 RawVal.null = 0 := by
  have hmain : r.total_billed_amount = ((trans.filter
        (fun t => t.claim_id == some r.claim_id)).map
        (fun t => numFill0 t.transaction_amount)).sum ∧
      r.total_paid_amount = ((trans.filter (fun t => t.claim_id == some r.claim_id)).map
        (fun t => numFill0 t.payments)).sum ∧
      r.patient_responsibility_amount = ((trans.filter
        (fun t => t.claim_id == some r.claim_id)).map
        (fun t => numFill0 t.outstanding)).sum := by
    unfold transformClaims at h
    split at h
    case isTrue => cases h
    case isFalse =>
      obtain ⟨c, hc, rfl⟩ := List.mem_map.mp h
      simp only [claimOutOf, claimFin]
      split
      case isTrue htr =>
        rw [List.isEmpty_iff.mp htr]
        simp
      case isFalse htr =>
        by_cases hmem : (c.claim_id.getD "") ∈ claimIdsOf trans
        · rw [claimFinancials_find?, if_pos hmem]
          exact ⟨rfl, rfl, rfl⟩
        · rw [claimFinancials_find?, if_neg hmem, filter_claim_id_nil trans _ hmem]
          simp
  refine ⟨hmain.1, hmain.2.1, hmain.2.2, ?_, rfl, rfl⟩
  intro hnil
  rw [hmain.1, hmain.2.1, hmain.2.2, hnil]
  simp

/-- Witness for C4: a concrete claim with an empty transactions source gets
the empty-filter sum (0) for total_billed_amount. -/
theorem claim_C4_witness :
    (claimOutOf [] ⟨some "C1", some "P1", none, RawVal.val 50, RawVal.null⟩).total_billed_amount
      = ((([] : List RawTransaction).filter
            (fun t => t.claim_id == some (claimOutOf []
              ⟨some "C1", some "P1", none, RawVal.val 50, RawVal.null⟩).claim_id)).map
          (fun t => numFill0 t.transaction_amount)).sum :=
  (claim_C4 [⟨some "C1", some "P1", none, RawVal.val 50, RawVal.null⟩] [] _
    (by simp [transformClaims, List.filter, parseRaw])).1

theorem transformTransactions_filter_length (trans : List RawTransaction) (tid : String)
    (hne : trans.isEmpty = false) :
    ((transformTransactions trans).filter (fun r => r.transaction_id == tid)).length
      = (trans.filter (fun t => t.transaction_id == some tid && t.claim_id.isSome
            && (parseRaw t.transaction_date).isSome)).length := by
  unfold transformTransactions
  simp only [hne, Bool.false_eq_true, if_false]
  rw [← List.countP_eq_length_filter, ← List.countP_eq_length_filter,
    List.countP_map, List.countP_filter]
  apply List.countP_congr
  intro t _
  cases ht : t.transaction_id <;> simp [ht, Bool.and_assoc, Bool.and_comm, Bool.and_left_comm]

theorem transTable_col (ts : Int) (outs : List TransOut) :
    colValues (coerceTable SilverClaimsTransactionsSchema
        (addTimestampCol ts (outs.map transRow))) "transaction_id"
      = outs.map (fun o => Cell.str o.transaction_id) := by
  unfold colValues coerceTable addTimestampCol
  rw [List.map_map, List.map_map, List.map_map]
  rfl

theorem count_str_map (outs : List TransOut) (tid : String) :
    (outs.map (fun o => Cell.str o.transaction_id)).count (Cell.str tid)
      = (outs.filter (fun r => r.transaction_id == tid)).length := by
  rw [List.count_eq_countP, List.countP_map, ← List.countP_eq_length_filter]
  apply List.countP_congr
  intro o _
  simp

/-- C8: a transaction source holding two rows with the same (non-null)
transaction_id, both with non-null claim_id and parseable transaction_date,
keeps both rows through the transform (no deduplication), and validation of
the resulting candidate table fails with a uniqueness violation on
transaction_id carrying the duplicated value — duplicates are never silently
dropped. -/
theorem claim_C8 (ts : Int) (trans : List RawTransaction) (tid : String)
    (h : 2 ≤ (trans.filter (fun t => t.transaction_id == some tid && t.claim_id.isSome
          && (parseRaw t.transaction_date).isSome)).length) :
    2 ≤ ((transformTransactions trans).filter (fun r => r.transaction_id == tid)).length ∧
    ∃ vs, validateTable SilverClaimsTransactionsSchema
        (addTimestampCol ts ((transformTransactions trans).map transRow)) = Except.error vs ∧
      ∃ v ∈ vs, v.field = "transaction_id" ∧ v.value = Cell.str tid ∧
        v.reason = "duplicate value in unique field" := by
  have hne : trans.isEmpty = false := by
    cases trans
    · simp at h
    · rfl
  have h1 : 2 ≤ ((transformTransactions trans).filter
      (fun r => r.transaction_id == tid)).length := by
    rw [transformTransactions_filter_length trans tid hne]
    exact h
  refine ⟨h1, ?_⟩
  have hcnt : 2 ≤ (colValues (coerceTable SilverClaimsTransactionsSchema
      (addTimestampCol ts ((transformTransactions trans).map transRow)))
        "transaction_id").count (Cell.str tid) := by
    rw [transTable_col, count_str_map]
    exact h1
  have hmemc : Cell.str tid ∈ colValues (coerceTable SilverClaimsTransactionsSchema
      (addTimestampCol ts ((transformTransactions trans).map transRow))) "transaction_id" := by
    rw [← List.count_pos_iff]
    omega
  obtain ⟨i, hi, hieq⟩ := List.getElem_of_mem hmemc
  have hgetD : (colValues (coerceTable SilverClaimsTransactionsSchema
      (addTimestampCol ts ((transformTransactions trans).map transRow)))
        "transaction_id").getD i Cell.null = Cell.str tid := by
    rw [List.getD_eq_getElem _ _ hi, hieq]
  have hv := mem_uniqueViolations_intro
    (⟨"transaction_id", FType.tstr, false, true, none, none, none, false⟩ : FieldSpec)
    (coerceTable SilverClaimsTransactionsSchema
      (addTimestampCol ts ((transformTransactions trans).map transRow))) i rfl hi
    (by rw [hgetD]; exact hcnt)
  have hcoll := mem_collect_of_unique SilverClaimsTransactionsSchema
    (coerceTable SilverClaimsTransactionsSchema
      (addTimestampCol ts ((transformTransactions trans).map transRow)))
    _ _ (by decide) hv
  refine ⟨_, validateTable_error_of_mem _ _ _ hcoll, _, hcoll, rfl, ?_, rfl⟩
  exact hgetD

/-- Witness for C8: two concrete transactions sharing transaction_id T1. -/
theorem claim_C8_witness :
    2 ≤ ((transformTransactions
        [⟨some "T1", some "C1", none, none, RawVal.val 10, RawVal.val 5, RawVal.val 1,
          RawVal.val 2, none, some "charge"⟩,
         ⟨some "T1", some "C1", none, none, RawVal.val 11, RawVal.val 7, RawVal.val 3,
          RawVal.val 4, none, none⟩]).filter
        (fun r => r.transaction_id == "T1")).length ∧
    ∃ vs, validateTable SilverClaimsTransactionsSchema
        (addTimestampCol 99 ((transformTransactions
          [⟨some "T1", some "C1", none, none, RawVal.val 10, RawVal.val 5, RawVal.val 1,
            RawVal.val 2, none, some "charge"⟩,
           ⟨some "T1", some "C1", none, none, RawVal.val 11, RawVal.val 7, RawVal.val 3,
            RawVal.val 4, none, none⟩]).map transRow)) = Except.error vs ∧
      ∃ v ∈ vs, v.field = "transaction_id" ∧ v.value = Cell.str "T1" ∧
        v.reason = "duplicate value in unique field" :=
  claim_C8 99
    [⟨some "T1", some "C1", none, none, RawVal.val 10, RawVal.val 5, RawVal.val 1,
      RawVal.val 2, none, some "charge"⟩,
     ⟨some "T1", some "C1", none, none, RawVal.val 11, RawVal.val 7, RawVal.val 3,
      RawVal.val 4, none, none⟩] "T1" (by decide)

/-- Ascending sortedness under the encounter-date order (NaT last) used by
sort_values. -/
def DateSorted (l : List EncSel) : Prop :=
  List.Pairwise (fun a b => dateLtB b.encounter_date a.encounter_date = false) l

theorem dateLtB_asymm (a b : Option Int) (h : dateLtB a b = true) : dateLtB b a = false := by
  cases a <;> cases b <;> simp_all [dateLtB] <;> omega

theorem dateLtB_le_trans (a b c : Option Int) (h1 : dateLtB b a = false)
    (h2 : dateLtB c b = false) : dateLtB c a = false := by
  cases a <;> cases b <;> cases c <;> simp_all [dateLtB] <;> omega

theorem dateLtB_lt_of_le (y b d : Option Int) (h1 : dateLtB b y = false)
    (h2 : dateLtB b d = true) : dateLtB y d = true := by
  cases y <;> cases b <;> cases d <;> simp_all [dateLtB] <;> omega

theorem mem_insertByDate (x z : EncSel) (s : List EncSel) :
    z ∈ insertByDate x s ↔ z = x ∨ z ∈ s := by
  induction s with
  | nil => simp [insertByDate]
  | cons y ys ih =>
    unfold insertByDate
    by_cases hlt : dateLtB y.encounter_date x.encounter_date = true
    · rw [if_pos hlt]
      simp only [List.mem_cons, ih]
      try tauto
    · rw [if_neg hlt]
      simp only [List.mem_cons]
      try tauto

theorem insertByDate_sorted (x : EncSel) (s : List EncSel) (hs : DateSorted s) :
    DateSorted (insertByDate x s) := by
  induction s with
  | nil => simp [insertByDate, DateSorted]
  | cons y ys ih =>
    rw [DateSorted, List.pairwise_cons] at hs
    obtain ⟨hy, hys⟩ := hs
    unfold insertByDate
    by_cases hlt : dateLtB y.encounter_date x.encounter_date = true
    · rw [if_pos hlt]
      rw [DateSorted, List.pairwise_cons]
      refine ⟨?_, ih hys⟩
      intro z hz
      rcases (mem_insertByDate x z ys).mp hz with rfl | hz'
      · exact dateLtB_asymm _ _ hlt
      · exact hy z hz'
    · rw [if_neg hlt]
      have hyx : dateLtB y.encounter_date x.encounter_date = false :=
        Bool.not_eq_true _ |>.mp hlt
      rw [DateSorted, List.pairwise_cons]
      refine ⟨?_, List.Pairwise.cons hy hys⟩
      intro z hz
      rcases List.mem_cons.mp hz with rfl | hz'
      · exact hyx
      · exact dateLtB_le_trans _ _ _ hyx (hy z hz')

theorem sortByDate_sorted (l : List EncSel) : DateSorted (sortByDate l) := by
  induction l with
  | nil => simp [sortByDate, DateSorted]
  | cons x xs ih => exact insertByDate_sorted x (sortByDate xs) ih

theorem insertByDate_cons_of_lt (x y : EncSel) (l : List EncSel)
    (h : dateLtB y.encounter_date x.encounter_date = true) :
    insertByDate x (y :: l) = y :: insertByDate x l := by
  simp only [insertByDate]
  rw [if_pos h]

theorem insertByDate_cons_of_ge (x y : EncSel) (l : List EncSel)
    (h : ¬ dateLtB y.encounter_date x.encounter_date = true) :
    insertByDate x (y :: l) = x :: y :: l := by
  simp only [insertByDate]
  rw [if_neg h]

theorem filter_insertByDate (p : EncSel → Bool) (x : EncSel) (s : List EncSel)
    (hs : DateSorted s) :
    (insertByDate x s).filter p
      = if p x then insertByDate x (s.filter p) else s.filter p := by
  induction s with
  | nil => cases hpx : p x <;> simp [insertByDate, hpx]
  | cons y ys ih =>
    rw [DateSorted, List.pairwise_cons] at hs
    obtain ⟨hy, hys⟩ := hs
    by_cases hlt : dateLtB y.encounter_date x.encounter_date = true
    · rw [insertByDate_cons_of_lt x y ys hlt]
      cases hpy : p y <;> cases hpx : p x <;>
        simp [List.filter_cons, hpy, hpx, ih hys, insertByDate_cons_of_lt, hlt]
    · have hyx : dateLtB y.encounter_date x.encounter_date = false :=
        Bool.not_eq_true _ |>.mp hlt
      rw [insertByDate_cons_of_ge x y ys hlt]
      cases hpx : p x
      · simp [List.filter_cons, hpx]
      · have hL : List.filter p (x :: y :: ys) = x :: List.filter p (y :: ys) := by
          rw [List.filter_cons]
          simp [hpx]
        rw [hL, if_pos rfl]
        have hall : ∀ z ∈ (y :: ys).filter p,
            dateLtB z.encounter_date x.encounter_date = false := by
          intro z hz
          have hz2 := List.mem_of_mem_filter hz
          rcases List.mem_cons.mp hz2 with rfl | hz3
          · exact hyx
          · exact dateLtB_le_trans _ _ _ hyx (hy z hz3)
        cases hfe : List.filter p (y :: ys) with
        | nil => rfl
        | cons a as =>
          rw [insertByDate_cons_of_ge x a as]
          intro hc
          have := hall a (by rw [hfe]; exact List.mem_cons_self a as)
          rw [this] at hc
          cases hc

theorem filter_sortByDate (p : EncSel → Bool) (l : List EncSel) :
    (sortByDate l).filter p = sortByDate (l.filter p) := by
  induction l with
  | nil => rfl
  | cons x xs ih =>
    have h1 : sortByDate (x :: xs) = insertByDate x (sortByDate xs) := rfl
    rw [h1, filter_insertByDate p x (sortByDate xs) (sortByDate_sorted xs), ih,
      List.filter_cons]
    cases hpx : p x
    · simp
    · simp [sortByDate]

/-- The selection the sort-then-keep-last pipeline of the embedding makes
among the encounter rows of one patient: a row with the greatest encounter
date, where an unparseable (NaT) date counts as greatest. Among equal-date
maxima it picks the later row, which is the stable-sort refinement; the
claims proved from it only use that the result is some maximal row. -/
def maxDateKeepLast : List EncSel → Option EncSel
  | [] => none
  | x :: xs =>
      match maxDateKeepLast xs with
      | none => some x
      | some b => if dateLtB b.encounter_date x.encounter_date then some x else some b

theorem getLast?_insertByDate (x : EncSel) (s : List EncSel) :
    (insertByDate x s).getLast?
      = if s.all (fun y => dateLtB y.encounter_date x.encounter_date) then some x
        else s.getLast? := by
  induction s with
  | nil => simp [insertByDate]
  | cons y ys ih =>
    by_cases hlt : dateLtB y.encounter_date x.encounter_date = true
    · rw [insertByDate_cons_of_lt x y ys hlt]
      have hne : insertByDate x ys ≠ [] := by
        cases ys with
        | nil => simp [insertByDate]
        | cons a as =>
          unfold insertByDate
          split <;> simp
      cases hins : insertByDate x ys with
      | nil => exact absurd hins hne
      | cons a as =>
        rw [List.getLast?_cons_cons, ← hins, ih]
        rw [List.all_cons, hlt, Bool.true_and]
        cases hall : ys.all (fun y => dateLtB y.encounter_date x.encounter_date)
        · cases ys with
          | nil => simp at hall
          | cons b bs => rw [List.getLast?_cons_cons]
        · rfl
    · rw [insertByDate_cons_of_ge x y ys hlt]
      have hyx : dateLtB y.encounter_date x.encounter_date = false :=
        Bool.not_eq_true _ |>.mp hlt
      rw [List.getLast?_cons_cons, List.all_cons, hyx, Bool.false_and, if_neg (by simp)]

theorem sorted_all_iff_last (s : List EncSel) (hs : DateSorted s) (b : EncSel)
    (d : Option Int) (hlast : s.getLast? = some b) :
    s.all (fun y => dateLtB y.encounter_date d) = dateLtB b.encounter_date d := by
  induction s with
  | nil => cases hlast
  | cons y ys ih =>
    rw [DateSorted, List.pairwise_cons] at hs
    obtain ⟨hy, hys⟩ := hs
    cases hys0 : ys with
    | nil =>
      subst hys0
      simp only [List.getLast?_singleton, Option.some.injEq] at hlast
      subst hlast
      simp
    | cons a as =>
      subst hys0
      rw [List.getLast?_cons_cons] at hlast
      have ihh := ih hys hlast
      rw [List.all_cons, ihh]
      have hbmem : b ∈ a :: as := by
        obtain ⟨hne, heq⟩ := List.mem_getLast?_eq_getLast (Option.mem_def.mpr hlast)
        rw [heq]
        exact List.getLast_mem hne
      have hyb : dateLtB b.encounter_date y.encounter_date = false := hy b hbmem
      cases hbd : dateLtB b.encounter_date d
      · simp [hbd]
      · rw [dateLtB_lt_of_le _ _ _ hyb hbd]
        rfl

theorem maxDateKeepLast_ne_none (x : EncSel) (xs : List EncSel) :
    maxDateKeepLast (x :: xs) ≠ none := by
  unfold maxDateKeepLast
  cases maxDateKeepLast xs with
  | none => simp
  | some b => cases hbx : dateLtB b.encounter_date x.encounter_date <;> simp [hbx]

theorem maxDateKeepLast_cons (x : EncSel) (xs : List EncSel) (b : EncSel)
    (hm : maxDateKeepLast xs = some b) :
    maxDateKeepLast (x :: xs)
      = if dateLtB b.encounter_date x.encounter_date then some x else some b := by
  unfold maxDateKeepLast
  rw [hm]

theorem getLast?_sortByDate (l : List EncSel) :
    (sortByDate l).getLast? = maxDateKeepLast l := by
  induction l with
  | nil => rfl
  | cons x xs ih =>
    have h1 : sortByDate (x :: xs) = insertByDate x (sortByDate xs) := rfl
    rw [h1, getLast?_insertByDate]
    cases hm : maxDateKeepLast xs with
    | none =>
      cases xs with
      | nil => simp [sortByDate, maxDateKeepLast]
      | cons a as => exact absurd hm (maxDateKeepLast_ne_none a as)
    | some b =>
      have hlast : (sortByDate xs).getLast? = some b := by rw [ih, hm]
      rw [sorted_all_iff_last (sortByDate xs) (sortByDate_sorted xs) b
        x.encounter_date hlast, maxDateKeepLast_cons x xs b hm]
      cases hbx : dateLtB b.encounter_date x.encounter_date
      · rw [if_neg (by simp [hbx]), if_neg (by simp [hbx]), hlast]
      · rw [if_pos rfl, if_pos rfl]

theorem find?_dropDupKeepLast (l : List EncSel) (ko : Option String) :
    (dropDupKeepLast l).find? (fun r => r.patient_id == ko)
      = (l.filter (fun r => r.patient_id == ko)).getLast? := by
  induction l with
  | nil => rfl
  | cons x xs ih =>
    unfold dropDupKeepLast
    by_cases hany : xs.any (fun y => y.patient_id == x.patient_id)
    · rw [if_pos hany, ih]
      by_cases hx : (x.patient_id == ko) = true
      · have hfc : (x :: xs).filter (fun r => r.patient_id == ko)
            = x :: xs.filter (fun r => r.patient_id == ko) := by
          simp [List.filter_cons, hx]
        rw [hfc]
        obtain ⟨y, hy, hyx⟩ := List.any_eq_true.mp hany
        have e1 : y.patient_id = x.patient_id := by simpa using hyx
        have e2 : x.patient_id = ko := by simpa using hx
        have hymem : y ∈ xs.filter (fun r => r.patient_id == ko) :=
          List.mem_filter.mpr ⟨hy, by simp [e1, e2]⟩
        cases hfe : xs.filter (fun r => r.patient_id == ko) with
        | nil =>
          rw [hfe] at hymem
          cases hymem
        | cons a as => rw [List.getLast?_cons_cons]
      · have hfc : (x :: xs).filter (fun r => r.patient_id == ko)
            = xs.filter (fun r => r.patient_id == ko) := by
          simp [List.filter_cons, hx]
        rw [hfc]
    · rw [if_neg hany]
      by_cases hx : (x.patient_id == ko) = true
      · have hfind : (x :: dropDupKeepLast xs).find? (fun r => r.patient_id == ko)
            = some x := by
          simp [List.find?_cons, hx]
        have hfe : xs.filter (fun r => r.patient_id == ko) = [] := by
          rw [List.filter_eq_nil_iff]
          intro y hy hybeq
          apply hany
          rw [List.any_eq_true]
          have e2 : x.patient_id = ko := by simpa using hx
          have e1 : y.patient_id = ko := by simpa using hybeq
          exact ⟨y, hy, by simp [e1, e2]⟩
        have hfc : (x :: xs).filter (fun r => r.patient_id == ko) = [x] := by
          simp [List.filter_cons, hx, hfe]
        rw [hfind, hfc]
        rfl
      · have hfind : (x :: dropDupKeepLast xs).find? (fun r => r.patient_id == ko)
            = (dropDupKeepLast xs).find? (fun r => r.patient_id == ko) := by
          simp [List.find?_cons, hx]
        have hfc : (x :: xs).filter (fun r => r.patient_id == ko)
            = xs.filter (fun r => r.patient_id == ko) := by
          simp [List.filter_cons, hx]
        rw [hfind, hfc, ih]

/-- The left-merge lookup equals the latest-encounter selection applied to
just the encounter rows of this patient. -/
theorem payerFromEncounters_char (encs : List RawEncounter) (pid : String) :
    payerFromEncounters encs pid
      = (maxDateKeepLast ((encs.map encSelOf).filter
          (fun s => s.patient_id == some pid))).bind (fun s => s.payer_id) := by
  unfold payerFromEncounters
  rw [find?_dropDupKeepLast, filter_sortByDate, getLast?_sortByDate]
  cases maxDateKeepLast ((encs.map encSelOf).filter (fun s => s.patient_id == some pid)) with
  | none => rfl
  | some r => rfl

theorem patientsWithPayer_snd (ts : Int) (encs : List RawEncounter) (pats : List RawPatient)
    (cp : PatCore × Option String) (hne : encs.isEmpty = false)
    (h : cp ∈ patientsWithPayer ts encs pats) :
    cp.2 = payerFromEncounters encs cp.1.patient_id := by
  unfold patientsWithPayer at h
  rw [hne] at h
  simp only [Bool.false_eq_true, if_false] at h
  obtain ⟨c, hc, rfl⟩ := List.mem_map.mp h
  rfl

theorem transformPatients_payer_id (ts : Int) (pats : List RawPatient)
    (encs : List RawEncounter) (pays : List RawPayer) (r : PatOut)
    (hpays : pays.isEmpty = false) (h : r ∈ transformPatients ts pats encs pays) :
    r.payer_id = payerFromEncounters encs r.patient_id := by
  unfold transformPatients at h
  split at h
  case isTrue => cases h
  case isFalse =>
    revert h
    cases hb : transformPatientsBody ts pats encs pays with
    | error e =>
      intro h
      cases h
    | ok l =>
      intro h
      unfold transformPatientsBody at hb
      split at hb
      case isTrue => cases hb
      case isFalse =>
        split at hb
        case isTrue hp => rw [hp] at hpays; cases hpays
        case isFalse hp =>
          split at hb
          case isTrue => cases hb
          case isFalse hencs =>
            cases hb
            obtain ⟨cp, hcp, hr⟩ := List.mem_flatMap.mp h
            obtain ⟨pname, rfl⟩ := mem_enrichName _ _ _ hr
            have hne : encs.isEmpty = false := by
              cases hisE : encs.isEmpty
              · rfl
              · exact absurd hisE hencs
            rw [show (mkPatOut cp.1 cp.2 pname).payer_id = cp.2 from rfl,
              show (mkPatOut cp.1 cp.2 pname).patient_id = cp.1.patient_id from rfl]
            exact patientsWithPayer_snd ts encs pats cp hne hcp

theorem transformPatients_payers_empty (ts : Int) (pats : List RawPatient)
    (encs : List RawEncounter) (pays : List RawPayer) (r : PatOut)
    (hpays : pays.isEmpty = true) (h : r ∈ transformPatients ts pats encs pays) :
    r.payer_id = none ∧ r.payer_name = defaultPayer := by
  unfold transformPatients at h
  split at h
  case isTrue => cases h
  case isFalse =>
    revert h
    cases hb : transformPatientsBody ts pats encs pays with
    | error e =>
      intro h
      cases h
    | ok l =>
      intro h
      unfold transformPatientsBody at hb
      split at hb
      case isTrue => cases hb
      case isFalse =>
        cases hb
        obtain ⟨cp, _, rfl⟩ := List.mem_map.mp h
        exact ⟨rfl, rfl⟩

theorem transformPatients_payer_name (ts : Int) (pats : List RawPatient)
    (encs : List RawEncounter) (pays : List RawPayer) (r : PatOut)
    (hpays : pays.isEmpty = false) (h : r ∈ transformPatients ts pats encs pays) :
    (∃ pc ∈ payersCleanOf pays, some pc.1 = r.payer_id ∧ r.payer_name = pc.2) ∨
    (r.payer_name = defaultPayer ∧ ∀ pc ∈ payersCleanOf pays, some pc.1 ≠ r.payer_id) := by
  unfold transformPatients at h
  split at h
  case isTrue => cases h
  case isFalse =>
    revert h
    cases hb : transformPatientsBody ts pats encs pays with
    | error e =>
      intro h
      cases h
    | ok l =>
      intro h
      unfold transformPatientsBody at hb
      split at hb
      case isTrue => cases hb
      case isFalse =>
        split at hb
        case isTrue hp => rw [hp] at hpays; cases hpays
        case isFalse hp =>
          split at hb
          case isTrue => cases hb
          case isFalse hencs =>
            cases hb
            obtain ⟨cp, hcp, hr⟩ := List.mem_flatMap.mp h
            unfold enrichName at hr
            split at hr
            case isTrue hhits =>
              simp only [List.mem_singleton] at hr
              subst hr
              refine Or.inr ⟨rfl, ?_⟩
              intro pc hpc heq
              have : pc ∈ (payersCleanOf pays).filter (fun q => some q.1 == cp.2) :=
                List.mem_filter.mpr ⟨hpc, by simp [heq, mkPatOut]⟩
              rw [List.isEmpty_iff.mp hhits] at this
              cases this
            case isFalse hhits =>
              obtain ⟨pc, hpc, rfl⟩ := List.mem_map.mp hr
              have hpcf := List.mem_filter.mp hpc
              refine Or.inl ⟨pc, hpcf.1, ?_, rfl⟩
              simpa using hpcf.2

theorem dateLtB_irrefl (a : Option Int) : dateLtB a a = false := by
  cases a <;> simp [dateLtB]

theorem maxDateKeepLast_ne_none_of_ne_nil (l : List EncSel) (h : l ≠ []) :
    maxDateKeepLast l ≠ none := by
  cases l with
  | nil => exact absurd rfl h
  | cons x xs => exact maxDateKeepLast_ne_none x xs

/-- The selected row is a member of the list and no row of the list has a
strictly greater encounter date (unparseable dates counting as greatest).
This holds of the keep-last pipeline under any sort of the rows by date, so
it does not depend on the stable tie order the embedding fixes. -/
theorem maxDateKeepLast_spec (l : List EncSel) (s : EncSel)
    (h : maxDateKeepLast l = some s) :
    s ∈ l ∧ ∀ t ∈ l, dateLtB s.encounter_date t.encounter_date = false := by
  induction l generalizing s with
  | nil => cases h
  | cons x xs ih =>
    unfold maxDateKeepLast at h
    cases hm : maxDateKeepLast xs with
    | none =>
      simp only [hm] at h
      injection h with h2
      subst h2
      have hxs : xs = [] := by
        cases xs with
        | nil => rfl
        | cons a as => exact absurd hm (maxDateKeepLast_ne_none a as)
      subst hxs
      refine ⟨List.mem_singleton.mpr rfl, ?_⟩
      intro t ht
      rw [List.mem_singleton.mp ht]
      exact dateLtB_irrefl _
    | some b =>
      simp only [hm] at h
      obtain ⟨hbmem, hbmax⟩ := ih b hm
      by_cases hbx : dateLtB b.encounter_date x.encounter_date = true
      · rw [if_pos hbx] at h
        injection h with h2
        subst h2
        refine ⟨List.mem_cons_self x xs, ?_⟩
        intro t ht
        rcases List.mem_cons.mp ht with rfl | htxs
        · exact dateLtB_irrefl _
        · exact dateLtB_asymm _ _ (dateLtB_lt_of_le _ _ _ (hbmax t htxs) hbx)
      · rw [if_neg hbx] at h
        injection h with h2
        subst h2
        refine ⟨List.mem_cons_of_mem x hbmem, ?_⟩
        intro t ht
        rcases List.mem_cons.mp ht with rfl | htxs
        · exact Bool.not_eq_true _ |>.mp hbx
        · exact hbmax t htxs

/-- C3 counterexample to the claim as stated: patient P1 has two encounters,
E1 with parseable encounter_date (day 100) and payer A — hence the unique
encounter with the latest encounter_date — and E2 with a non-null but
unparseable encounter_date (NaT) and payer B. sort_values places NaT last,
so keep-last selects E2 and the transform assigns payer B, not the payer of
the latest-dated encounter. -/
theorem claim_C3_counterexample :
    (transformPatients 19723
        [⟨some "P1", some "ana", some "silva", RawVal.val 0, some "F"⟩]
        [⟨some "E1", some "P1", none, some "A", RawVal.val 100, RawVal.null, none,
          RawVal.val 0, RawVal.val 0⟩,
         ⟨some "E2", some "P1", none, some "B", RawVal.invalid, RawVal.null, none,
          RawVal.val 0, RawVal.val 0⟩]
        [⟨some "A", some "Acme Health"⟩, ⟨some "B", some "Beta Health"⟩]).map
        (fun r => r.payer_id) = [some "B"] ∧
    (([⟨some "E1", some "P1", none, some "A", RawVal.val 100, RawVal.null, none,
          RawVal.val 0, RawVal.val 0⟩,
       ⟨some "E2", some "P1", none, some "B", RawVal.invalid, RawVal.null, none,
          RawVal.val 0, RawVal.val 0⟩] : List RawEncounter).filter
        (fun e => (parseRaw e.encounter_date).isSome)).map (fun e => e.payer_id)
      = [some "A"] := by
  constructor
  · rfl
  · rfl

/-- C3 amended: for every output patient row, when the payer table is
non-empty: if the patient has at least one encounter row, payer_id is the
payer_id of one of the encounter rows of that patient whose encounter_date
is maximal under the order sort_values uses, in which an unparseable (NaT)
encounter_date counts as greater than every parsed date — so the
latest-dated encounter is selected when the dates of the patient all parse
and the maximum is unique, an unparseable-dated encounter is selected
whenever one exists, and which row wins among equal maxima is
implementation-defined (the default quicksort is not stable) and not
asserted; if the patient has no encounter row, payer_id is null. payer_name
is joined via payer_id with the sentinel for a missed join; when the payer
table is empty, the payer_name of every patient is the sentinel and
payer_id is null, including for patients that had encounters. -/
theorem claim_C3 (ts : Int) (pats : List RawPatient) (encs : List RawEncounter)
    (pays : List RawPayer) (r : PatOut) (h : r ∈ transformPatients ts pats encs pays) :
    (pays.isEmpty = false →
       (((encs.map encSelOf).filter (fun s => s.patient_id == some r.patient_id)) ≠ [] →
          ∃ s ∈ (encs.map encSelOf).filter (fun s => s.patient_id == some r.patient_id),
            r.payer_id = s.payer_id ∧
            ∀ t ∈ (encs.map encSelOf).filter (fun s => s.patient_id == some r.patient_id),
              dateLtB s.encounter_date t.encounter_date = false) ∧
       (((encs.map encSelOf).filter (fun s => s.patient_id == some r.patient_id)) = [] →
          r.payer_id = none) ∧
       ((∃ pc ∈ payersCleanOf pays, some pc.1 = r.payer_id ∧ r.payer_name = pc.2) ∨
        (r.payer_name = defaultPayer ∧ ∀ pc ∈ payersCleanOf pays, some pc.1 ≠ r.payer_id))) ∧
    (pays.isEmpty = true → r.payer_id = none ∧ r.payer_name = defaultPayer) := by
  constructor
  · intro hpays
    have hpid := transformPatients_payer_id ts pats encs pays r hpays h
    rw [payerFromEncounters_char] at hpid
    refine ⟨?_, ?_, transformPatients_payer_name ts pats encs pays r hpays h⟩
    · intro hne
      cases hm : maxDateKeepLast ((encs.map encSelOf).filter
          (fun s => s.patient_id == some r.patient_id)) with
      | none => exact absurd hm (maxDateKeepLast_ne_none_of_ne_nil _ hne)
      | some sel =>
        obtain ⟨hsmem, hsmax⟩ := maxDateKeepLast_spec _ sel hm
        rw [hm] at hpid
        exact ⟨sel, hsmem, hpid, hsmax⟩
    · intro hnil
      rw [hnil] at hpid
      exact hpid
  · intro hpays
    exact transformPatients_payers_empty ts pats encs pays r hpays h

/-- Concrete inputs exercising the amended C3 selection. -/
def c3pat : RawPatient := ⟨some "P1", some "ana", some "silva", RawVal.val 0, some "F"⟩

def c3encs : List RawEncounter :=
  [⟨some "E1", some "P1", none, some "A", RawVal.val 100, RawVal.null, none,
    RawVal.val 0, RawVal.val 0⟩,
   ⟨some "E2", some "P1", none, some "B", RawVal.invalid, RawVal.null, none,
    RawVal.val 0, RawVal.val 0⟩]

def c3pays : List RawPayer := [⟨some "A", some "Acme Health"⟩, ⟨some "B", some "Beta Health"⟩]

def c3row : PatOut := mkPatOut (patientCore 19723 c3pat) (some "B") "Beta Health"

def c3mine : List EncSel :=
  (c3encs.map encSelOf).filter (fun s => s.patient_id == some c3row.patient_id)

/-- Witness for C3 at the counterexample input: some maximal-date encounter
row of P1 (here the NaT-dated one) supplies payer B, with payer_name joined
from the payer table. -/
theorem claim_C3_witness :
    (c3pays.isEmpty = false →
       (c3mine ≠ [] →
          ∃ s ∈ c3mine, c3row.payer_id = s.payer_id ∧
            ∀ t ∈ c3mine, dateLtB s.encounter_date t.encounter_date = false) ∧
       (c3mine = [] → c3row.payer_id = none) ∧
       ((∃ pc ∈ payersCleanOf c3pays, some pc.1 = c3row.payer_id ∧ c3row.payer_name = pc.2) ∨
        (c3row.payer_name = defaultPayer ∧
         ∀ pc ∈ payersCleanOf c3pays, some pc.1 ≠ c3row.payer_id))) ∧
    (c3pays.isEmpty = true → c3row.payer_id = none ∧ c3row.payer_name = defaultPayer) :=
  claim_C3 19723 [c3pat] c3encs c3pays c3row (List.Mem.head _)
